import Mathlib

/-!
Formal model of the bbs-client-genz core engines (Telnet cleaning layer,
ZMODEM codec/receiver/sender, ANSI screen), shallowly embedded from the Go
sources.  Bytes are modelled as natural numbers (values < 256 on the wire),
Go byte slices and strings as lists of naturals, and the stateful loops as
explicit state-passing functions (with fuel where the source loop's
termination is itself in question).
-/

set_option maxRecDepth 10000
set_option maxHeartbeats 1000000

/- ───────────────────────── Telnet layer (internal/telnet/telnet.go) ───────────────────────── -/

/-- Telnet protocol constants (RFC 854), from the const block of telnet.go. -/
def IACb : Nat := 255
def DONTb : Nat := 254
def DOb : Nat := 253
def WONTb : Nat := 252
def WILLb : Nat := 251
def SBb : Nat := 250
def SEb : Nat := 240
def NAWSb : Nat := 31
def TTYPEb : Nat := 24
def ECHOb : Nat := 1
def SGAb : Nat := 3
def BINARYb : Nat := 0

/-- Terminal type string sent during TTYPE negotiation ("ANSI"). -/
def TermType : List Nat := [65, 78, 83, 73]

/-- Default terminal size advertised by the connection. -/
def DefaultCols : Nat := 80

def DefaultRows : Nat := 25

/-- Bytes of a three byte IAC command, as written by sendIAC. -/
def sendIAC (cmd opt : Nat) : List Nat := [IACb, cmd, opt]

/-- Bytes of the NAWS subnegotiation written by sendNAWS: two big endian
16-bit integers (cols, rows) between IAC SB NAWS and IAC SE. -/
def sendNAWS (cols rows : Nat) : List Nat :=
  [IACb, SBb, NAWSb, (cols % 65536) >>> 8, cols % 256, (rows % 65536) >>> 8, rows % 256, IACb, SEb]

/-- Replies produced by negotiate(cmd, opt): the list of Send payloads, in
order.  Mirrors the switch in telnet.go negotiate. -/
def negotiate (cols rows cmd opt : Nat) : List (List Nat) :=
  if cmd = DOb then
    if opt = TTYPEb then [sendIAC WILLb TTYPEb]
    else if opt = NAWSb then [sendIAC WILLb NAWSb, sendNAWS cols rows]
    else if opt = SGAb ∨ opt = BINARYb then [sendIAC WILLb opt]
    else [sendIAC WONTb opt]
  else if cmd = WILLb then
    if opt = ECHOb ∨ opt = SGAb ∨ opt = BINARYb then [sendIAC DOb opt]
    else [sendIAC DONTb opt]
  else if cmd = DONTb then [sendIAC WONTb opt]
  else if cmd = WONTb then [sendIAC DONTb opt]
  else []

/-- Replies produced by subnegotiate(data): answers TTYPE SEND with
IAC SB TTYPE IS "ANSI" IAC SE, mirroring telnet.go subnegotiate. -/
def subnegotiate (data : List Nat) : List (List Nat) :=
  match data with
  | t :: k :: _ =>
      if t = TTYPEb ∧ k = 1 then [[IACb, SBb, TTYPEb, 0] ++ TermType ++ [IACb, SEb]] else []
  | _ => []

/-- Search for IAC SE from absolute index i, returning its index (findIACSE;
the Go function returns -1 when absent, modelled as none). -/
def findIACSEAux : List Nat → Nat → Option Nat
  | a :: b :: rest, i => if a = IACb ∧ b = SEb then some i else findIACSEAux (b :: rest) (i + 1)
  | _, _ => none

def findIACSE (data : List Nat) (start : Nat) : Option Nat :=
  findIACSEAux (data.drop start) start

/-- Output accumulated by one processTelnet call: the clean bytes and the
Send payloads issued by negotiate/subnegotiate, in order. -/
structure TelnetOut where
  clean : List Nat
  sends : List (List Nat)
deriving Repr, DecidableEq

/-- Result of one iteration of the processTelnet for-loop: either the loop
continues at index i, or it exits (loop condition false, or the for-level
break on a lone trailing IAC). -/
inductive TelnetStepRes where
  | cont (i : Nat) (out : TelnetOut)
  | exit (out : TelnetOut)
deriving Repr, DecidableEq

/-- One iteration of the processTelnet loop body, translated line by line
from telnet.go.  Note the Go semantics of break: in the DO/DONT/WILL/WONT
and SB cases the break statement exits only the switch, so the loop resumes
with i unchanged (.cont i out); only the lone-IAC check at the top of the
loop body breaks the for loop itself (.exit). -/
def telnetStep (cols rows : Nat) (data : List Nat) (i : Nat) (out : TelnetOut) : TelnetStepRes :=
  match data[i]? with
  | none => .exit out
  | some b =>
    if b = IACb then
      match data[i + 1]? with
      | none => .exit out
      | some cmd =>
        if cmd = IACb then
          .cont (i + 2) { out with clean := out.clean ++ [IACb] }
        else if cmd = DOb ∨ cmd = DONTb ∨ cmd = WILLb ∨ cmd = WONTb then
          match data[i + 2]? with
          | none => .cont i out
          | some opt => .cont (i + 3) { out with sends := out.sends ++ negotiate cols rows cmd opt }
        else if cmd = SBb then
          match findIACSE data i with
          | none => .cont i out
          | some e =>
              .cont (e + 2)
                { out with sends := out.sends ++ subnegotiate ((data.take e).drop (i + 2)) }
        else .cont (i + 2) out
    else .cont (i + 1) { out with clean := out.clean ++ [b] }

/-- Run the processTelnet loop with the given fuel; none means the loop had
not exited after that many iterations. -/
def processTelnetAux (cols rows : Nat) (data : List Nat) : Nat → Nat → TelnetOut → Option TelnetOut
  | 0, _, _ => none
  | fuel + 1, i, out =>
    match telnetStep cols rows data i out with
    | .exit o => some o
    | .cont i2 o2 => processTelnetAux cols rows data fuel i2 o2

/-- processTelnet on one read buffer.  The connection has no carry-over
buffer: recvLoop calls processTelnet on each read independently. -/
def processTelnet (data : List Nat) (fuel : Nat) : Option TelnetOut :=
  processTelnetAux DefaultCols DefaultRows data fuel 0 ⟨[], []⟩

/-- Capacity of the DataCh channel created by New (make(chan []byte, 64)). -/
def DataChCap : Nat := 64

/-- emitData models the select-with-default send to DataCh: the channel
content is a queue of chunks; when it already holds DataChCap chunks the
new chunk is silently dropped. -/
def emitData (ch : List (List Nat)) (data : List Nat) : List (List Nat) :=
  if ch.length < DataChCap then ch ++ [data] else ch

/-- Permission mode passed to os.MkdirAll by startZmodemDownload in
telnet.go for the downloads directory. -/
def telnetDownloadDirMode : Nat := 0o755

/-- Permission mode passed to os.MkdirAll by Receiver.Start for the
download directory. -/
def receiverStartDirMode : Nat := 0o755

/-- Permission mode passed to os.MkdirAll by App.Startup for the logs
directory. -/
def appLogsDirMode : Nat := 0o700

/- ───────────────────────── Theorems: C1, C2, C9, C10 ───────────────────────── -/

/-- C10: the claim that processTelnet terminates on every finite input is
false: on input [0xFF, 0xFD] (IAC DO with the option byte missing) the Go
break exits only the switch, so the loop re-reads the same IAC DO forever.
Formally, no amount of fuel makes the loop exit. -/
theorem processTelnet_diverges_on_truncated_do :
    ∀ fuel : Nat, processTelnet [255, 253] fuel = none := by
  have aux : ∀ (fuel : Nat) (out : TelnetOut),
      processTelnetAux DefaultCols DefaultRows [255, 253] fuel 0 out = none := by
    intro fuel
    induction fuel with
    | zero => intro out; rfl
    | succ n ih =>
        intro out
        have hstep : telnetStep DefaultCols DefaultRows [255, 253] 0 out = .cont 0 out := by
          rfl
        simp only [processTelnetAux, hstep]
        exact ih out
  intro fuel
  exact aux fuel ⟨[], []⟩

/-- C1: the trailing bytes of an IAC sequence truncated at the end of a
read are NOT preserved for the next read.  For read 1 = [0x41, 0xFF] the
lone IAC is dropped (clean = [0x41], nothing carried over), and read 2 =
[0xFB, 0x01] is then treated as ordinary data (clean = [0xFB, 0x01], no
negotiation reply), so the clean stream is [0x41, 0xFB, 0x01] and no
IAC DO ECHO reply is ever sent. -/
theorem processTelnet_drops_split_iac :
    processTelnet [65, 255] 8 = some ⟨[65], []⟩ ∧
    processTelnet [251, 1] 8 = some ⟨[251, 1], []⟩ ∧
    ([65] : List Nat) ++ [251, 1] ≠ [65] := by
  refine ⟨by decide, by decide, by decide⟩

/-- C2: the clean-byte handoff drops on backpressure.  With DataCh already
holding DataChCap chunks, emitData discards the new chunk: the queue is
unchanged and the chunk is not in it. -/
theorem emitData_drops_when_full :
    emitData (List.replicate DataChCap [0]) [65] = List.replicate DataChCap [0] ∧
    ([65] : List Nat) ∉ List.replicate DataChCap ([0] : List Nat) := by
  refine ⟨by decide, by decide⟩

/-- C9: the downloads directory is created with mode 0755 both by the
telnet layer and by the ZMODEM receiver, not 0700; only the logs directory
uses 0700. -/
theorem download_dirs_not_owner_only :
    telnetDownloadDirMode = 0o755 ∧ receiverStartDirMode = 0o755 ∧
    appLogsDirMode = 0o700 ∧ telnetDownloadDirMode ≠ 0o700 := by
  refine ⟨rfl, rfl, rfl, by decide⟩

/- ───────────────────────── ZMODEM codec (unnamed/part_004, package zmodem) ───────────────────────── -/

def ZPADb : Nat := 0x2A
def ZDLEb : Nat := 0x18
def ZHEXb : Nat := 0x42
def ZBINb : Nat := 0x41
def ZBIN32b : Nat := 0x43

def ZRQINITf : Nat := 0
def ZRINITf : Nat := 1
def ZSINITf : Nat := 2
def ZACKf : Nat := 3
def ZFILEf : Nat := 4
def ZSKIPf : Nat := 5
def ZFINf : Nat := 8
def ZRPOSf : Nat := 9
def ZDATAf : Nat := 10
def ZEOFf : Nat := 11
def ZCANf : Nat := 16

def ZCRCEb : Nat := 0x68
def ZCRCGb : Nat := 0x69
def ZCRCQb : Nat := 0x6A
def ZCRCWb : Nat := 0x6B

def CANFDXb : Nat := 0x01
def CANOVIOb : Nat := 0x02
def CANFC32b : Nat := 0x20

def MaxFileSize : Nat := 4 * 1024 * 1024 * 1024
def MaxBufSize : Nat := 64 * 1024
def BlockSize : Nat := 1024
def MaxRetries : Nat := 5

/-- Abort sequence: eight CAN bytes then eight BS bytes. -/
def AbortSeq : List Nat :=
  [0x18, 0x18, 0x18, 0x18, 0x18, 0x18, 0x18, 0x18, 8, 8, 8, 8, 8, 8, 8, 8]

/-- Membership in the zdleEscapeSet map of part_004. -/
def zdleEscapeSet (b : Nat) : Bool :=
  b == 0x18 || b == 0x10 || b == 0x11 || b == 0x13 || b == 0x90 || b == 0x91 ||
  b == 0x93 || b == 0x0D || b == 0x8D || b == 0xFF

/-- ZDLEEscape replaces every byte of the escape set (and ZDLE itself) by
ZDLE, b xor 0x40. -/
def ZDLEEscape : List Nat → List Nat
  | [] => []
  | b :: rest =>
    if zdleEscapeSet b || b == ZDLEb then ZDLEb :: (b ^^^ 64) :: ZDLEEscape rest
    else b :: ZDLEEscape rest

/-- One shift step of the CRC16-CCITT table computation (uint16 arithmetic,
polynomial 0x1021). -/
def crc16Round (crc : Nat) : Nat :=
  if crc &&& 0x8000 ≠ 0 then ((crc <<< 1) ^^^ 0x1021) % 65536 else (crc <<< 1) % 65536

def crc16Shift : Nat → Nat → Nat
  | crc, 0 => crc
  | crc, j + 1 => crc16Shift (crc16Round crc) j

/-- crc16Table[i] of the init block, as a function of the table index. -/
def crc16Entry (i : Nat) : Nat := crc16Shift (((i % 256) <<< 8) % 65536) 8

def crc16Update (crc b : Nat) : Nat :=
  ((crc <<< 8) % 65536) ^^^ crc16Entry (((crc >>> 8) ^^^ b) &&& 255)

/-- CRC16 of part_004: table-driven CRC16-CCITT. -/
def CRC16 (data : List Nat) (initial : Nat) : Nat := data.foldl crc16Update initial

/-- One shift step of the reflected CRC32 table computation
(polynomial 0xEDB88320). -/
def crc32Round (crc : Nat) : Nat :=
  if crc &&& 1 ≠ 0 then (crc >>> 1) ^^^ 0xEDB88320 else crc >>> 1

def crc32Shift : Nat → Nat → Nat
  | crc, 0 => crc
  | crc, j + 1 => crc32Shift (crc32Round crc) j

/-- crc32Table[i] of the init block. -/
def crc32Entry (i : Nat) : Nat := crc32Shift (i % 256) 8

def crc32Update (crc b : Nat) : Nat :=
  crc32Entry ((crc ^^^ b) &&& 255) ^^^ (crc >>> 8)

/-- CRC32 of part_004: table-driven reflected CRC32 with final xor. -/
def CRC32 (data : List Nat) (initial : Nat) : Nat :=
  (data.foldl crc32Update initial) ^^^ 0xFFFFFFFF

/-- Bytes written by binary.BigEndian.PutUint16. -/
def be16Bytes (v : Nat) : List Nat := [(v >>> 8) &&& 255, v &&& 255]

/-- Bytes written by binary.LittleEndian.PutUint32. -/
def le32Bytes (v : Nat) : List Nat :=
  [v &&& 255, (v >>> 8) &&& 255, (v >>> 16) &&& 255, (v >>> 24) &&& 255]

/-- binary.BigEndian.Uint16. -/
def beUint16 : List Nat → Nat
  | [a, b] => (a <<< 8) ||| b
  | _ => 0

/-- binary.LittleEndian.Uint32. -/
def leUint32 : List Nat → Nat
  | [a, b, c, d] => a ||| (b <<< 8) ||| (c <<< 16) ||| (d <<< 24)
  | _ => 0

/-- BuildDataSubpacket of part_004: escaped payload, ZDLE end-type, escaped
CRC over payload ++ [endType]. -/
def BuildDataSubpacket (data : List Nat) (endType : Nat) (useCRC32 : Bool) : List Nat :=
  let checkData := data ++ [endType]
  ZDLEEscape data ++ [ZDLEb, endType] ++
    (if useCRC32 then ZDLEEscape (le32Bytes (CRC32 checkData 0xFFFFFFFF))
     else ZDLEEscape (be16Bytes (CRC16 checkData 0)))

/-- Payload scanning loop of ParseDataSubpacket: unescape until ZDLE
end-type; returns (payload, endType, rest) or none when the input ends
before an end-type is found. -/
def spScan : List Nat → List Nat → Option (List Nat × Nat × List Nat)
  | [], _ => none
  | b :: rest, acc =>
    if b = ZDLEb then
      match rest with
      | [] => none
      | nb :: rest2 =>
        if nb = ZCRCEb ∨ nb = ZCRCGb ∨ nb = ZCRCQb ∨ nb = ZCRCWb then some (acc, nb, rest2)
        else spScan rest2 (acc ++ [nb ^^^ 64])
    else spScan rest (acc ++ [b])

/-- CRC/byte unescaping loop shared by ParseDataSubpacket and
ParseBinHeader: read up to need unescaped bytes, returning them and the
remaining input (short reads return fewer than need bytes). -/
def crcRead : Nat → List Nat → List Nat × List Nat
  | 0, rest => ([], rest)
  | _ + 1, [] => ([], [])
  | need + 1, b :: rest =>
    if b = ZDLEb then
      match rest with
      | [] => ([], [])
      | nb :: rest2 =>
        let p := crcRead need rest2
        ((nb ^^^ 64) :: p.1, p.2)
    else
      let p := crcRead need rest
      (b :: p.1, p.2)

/-- ParseDataSubpacket of part_004.  The Consumed count is represented by
returning the unconsumed remainder of the input. -/
def ParseDataSubpacket (data : List Nat) (useCRC32 : Bool) : Option (List Nat × Nat × List Nat) :=
  match spScan data [] with
  | none => none
  | some (payload, endType, rest) =>
    let need := if useCRC32 then 4 else 2
    let cr := crcRead need rest
    if cr.1.length < need then none
    else
      let checkData := payload ++ [endType]
      let ok :=
        if useCRC32 then leUint32 cr.1 = CRC32 checkData 0xFFFFFFFF
        else beUint16 cr.1 = CRC16 checkData 0
      if ok then some (payload, endType, cr.2) else none

/- ───────────────────────── Roundtrip lemmas for the subpacket codec ───────────────────────── -/

theorem crc16Round_lt (c : Nat) : crc16Round c < 65536 := by
  unfold crc16Round
  split <;> exact Nat.mod_lt _ (by norm_num)

theorem crc16Shift_lt : ∀ (n c : Nat), c < 65536 → crc16Shift c n < 65536 := by
  intro n
  induction n with
  | zero => intro c hc; exact hc
  | succ k ih => intro c _; simp only [crc16Shift]; exact ih _ (crc16Round_lt c)

theorem crc16Entry_lt (i : Nat) : crc16Entry i < 65536 :=
  crc16Shift_lt 8 _ (Nat.mod_lt _ (by norm_num))

theorem crc16Update_lt (c b : Nat) : crc16Update c b < 65536 := by
  have h1 : (c <<< 8) % 65536 < 65536 := Nat.mod_lt _ (by norm_num)
  have h2 := crc16Entry_lt (((c >>> 8) ^^^ b) &&& 255)
  have h16 : (65536 : Nat) = 2 ^ 16 := by norm_num
  unfold crc16Update
  rw [h16] at h1 h2 ⊢
  exact Nat.xor_lt_two_pow h1 h2

theorem CRC16_lt : ∀ (data : List Nat) (init : Nat), init < 65536 → CRC16 data init < 65536 := by
  intro data
  induction data with
  | nil => intro init h; exact h
  | cons b rest ih =>
      intro init _
      show List.foldl crc16Update (crc16Update init b) rest < 65536
      exact ih (crc16Update init b) (crc16Update_lt init b)

theorem crc32Round_lt (c : Nat) (hc : c < 4294967296) : crc32Round c < 4294967296 := by
  have h32 : (4294967296 : Nat) = 2 ^ 32 := by norm_num
  have hs : c >>> 1 < 4294967296 := by
    rw [Nat.shiftRight_eq_div_pow]
    exact lt_of_le_of_lt (Nat.div_le_self _ _) hc
  unfold crc32Round
  split
  · rw [h32] at hs ⊢
    exact Nat.xor_lt_two_pow hs (by norm_num)
  · exact hs

theorem crc32Shift_lt : ∀ (n c : Nat), c < 4294967296 → crc32Shift c n < 4294967296 := by
  intro n
  induction n with
  | zero => intro c hc; exact hc
  | succ k ih => intro c hc; simp only [crc32Shift]; exact ih _ (crc32Round_lt c hc)

theorem crc32Entry_lt (i : Nat) : crc32Entry i < 4294967296 :=
  crc32Shift_lt 8 _ (lt_trans (Nat.mod_lt _ (by norm_num)) (by norm_num))

theorem crc32Update_lt (c b : Nat) (hc : c < 4294967296) : crc32Update c b < 4294967296 := by
  have h32 : (4294967296 : Nat) = 2 ^ 32 := by norm_num
  have h1 := crc32Entry_lt ((c ^^^ b) &&& 255)
  have h2 : c >>> 8 < 4294967296 := by
    rw [Nat.shiftRight_eq_div_pow]
    exact lt_of_le_of_lt (Nat.div_le_self _ _) hc
  unfold crc32Update
  rw [h32] at h1 h2 ⊢
  exact Nat.xor_lt_two_pow h1 h2

theorem crc32Fold_lt : ∀ (data : List Nat) (init : Nat), init < 4294967296 →
    List.foldl crc32Update init data < 4294967296 := by
  intro data
  induction data with
  | nil => intro init h; exact h
  | cons b rest ih =>
      intro init h
      exact ih (crc32Update init b) (crc32Update_lt init b h)

theorem CRC32_lt (data : List Nat) (init : Nat) (h : init < 4294967296) :
    CRC32 data init < 4294967296 := by
  have h32 : (4294967296 : Nat) = 2 ^ 32 := by norm_num
  have h1 := crc32Fold_lt data init h
  unfold CRC32
  rw [h32] at h1 ⊢
  exact Nat.xor_lt_two_pow h1 (by norm_num)

theorem shl_or_eq_add (a b k : Nat) (hb : b < 2 ^ k) : (a <<< k) ||| b = a * 2 ^ k + b := by
  rw [Nat.shiftLeft_eq, show a * 2 ^ k = 2 ^ k * a from Nat.mul_comm a _,
      ← Nat.mul_add_lt_is_or hb]

theorem or_shl_eq_add (a b k : Nat) (hb : b < 2 ^ k) : b ||| (a <<< k) = a * 2 ^ k + b := by
  rw [Nat.or_comm]
  exact shl_or_eq_add a b k hb

theorem and255_eq_mod (x : Nat) : x &&& 255 = x % 256 := by
  have h : (255 : Nat) = 2 ^ 8 - 1 := by norm_num
  rw [h, Nat.and_pow_two_sub_one_eq_mod]

theorem shr_eq_div (x k : Nat) : x >>> k = x / 2 ^ k := Nat.shiftRight_eq_div_pow x k

theorem beUint16_be16Bytes (v : Nat) (hv : v < 65536) : beUint16 (be16Bytes v) = v := by
  show ((v >>> 8) &&& 255) <<< 8 ||| (v &&& 255) = v
  rw [and255_eq_mod, and255_eq_mod, shr_eq_div]
  rw [shl_or_eq_add _ _ 8 (by norm_num [Nat.mod_lt])]
  have h8 : (2 : Nat) ^ 8 = 256 := by norm_num
  rw [h8]
  omega

theorem leUint32_le32Bytes (v : Nat) (hv : v < 4294967296) : leUint32 (le32Bytes v) = v := by
  show (v &&& 255) ||| (((v >>> 8) &&& 255) <<< 8) ||| (((v >>> 16) &&& 255) <<< 16) |||
      (((v >>> 24) &&& 255) <<< 24) = v
  rw [and255_eq_mod, and255_eq_mod, and255_eq_mod, and255_eq_mod,
      shr_eq_div, shr_eq_div, shr_eq_div]
  have h8 : (2 : Nat) ^ 8 = 256 := by norm_num
  have h16 : (2 : Nat) ^ 16 = 65536 := by norm_num
  have h24 : (2 : Nat) ^ 24 = 16777216 := by norm_num
  rw [or_shl_eq_add _ _ 8 (by norm_num [Nat.mod_lt])]
  rw [or_shl_eq_add _ _ 16 (by rw [h8, h16]; omega)]
  rw [or_shl_eq_add _ _ 24 (by rw [h8, h16, h24]; omega)]
  rw [h8, h16, h24]
  omega

theorem escapedByte_ne_end (b : Nat) (h : (zdleEscapeSet b || b == ZDLEb) = true) :
    ¬(b ^^^ 64 = ZCRCEb ∨ b ^^^ 64 = ZCRCGb ∨ b ^^^ 64 = ZCRCQb ∨ b ^^^ 64 = ZCRCWb) := by
  simp only [zdleEscapeSet, Bool.or_eq_true, beq_iff_eq] at h
  rcases h with ((((((((((h | h) | h) | h) | h) | h) | h) | h) | h) | h) | h) <;>
    subst h <;> decide

theorem unescapedByte_ne_zdle (b : Nat) (h : ¬(zdleEscapeSet b || b == ZDLEb) = true) :
    b ≠ ZDLEb := by
  simp only [Bool.or_eq_true, beq_iff_eq, not_or] at h
  exact h.2

theorem xor64_cancel (b : Nat) : b ^^^ 64 ^^^ 64 = b := by
  rw [Nat.xor_assoc]
  simp

theorem spScan_escape_append :
    ∀ (p rest acc : List Nat) (e : Nat),
      e = ZCRCEb ∨ e = ZCRCGb ∨ e = ZCRCQb ∨ e = ZCRCWb →
      spScan (ZDLEEscape p ++ (ZDLEb :: e :: rest)) acc = some (acc ++ p, e, rest) := by
  intro p
  induction p with
  | nil =>
      intro rest acc e he
      simp [ZDLEEscape, spScan, he]
  | cons b p ih =>
      intro rest acc e he
      by_cases hb : (zdleEscapeSet b || b == ZDLEb) = true
      · have hne := escapedByte_ne_end b hb
        simp only [ZDLEEscape, if_pos hb, List.cons_append]
        simp only [spScan, if_pos rfl, if_neg hne]
        rw [xor64_cancel, ih rest (acc ++ [b]) e he]
        simp
      · have hbz := unescapedByte_ne_zdle b hb
        simp only [ZDLEEscape, if_neg hb, List.cons_append]
        rw [spScan.eq_def]
        simp only [hbz, ite_false]
        rw [ih rest (acc ++ [b]) e he]
        simp

theorem crcRead_escape :
    ∀ (cs rest : List Nat), crcRead cs.length (ZDLEEscape cs ++ rest) = (cs, rest) := by
  intro cs
  induction cs with
  | nil => intro rest; rfl
  | cons c cs ih =>
      intro rest
      by_cases hc : (zdleEscapeSet c || c == ZDLEb) = true
      · simp only [ZDLEEscape, if_pos hc, List.length_cons, List.cons_append]
        simp only [crcRead, if_pos rfl]
        rw [ih rest]
        simp [xor64_cancel]
      · have hcz := unescapedByte_ne_zdle c hc
        simp only [ZDLEEscape, if_neg hc, List.length_cons, List.cons_append]
        rw [crcRead.eq_def]
        simp only [hcz, ite_false]
        rw [ih rest]

theorem crcRead_escape_nil (cs : List Nat) : crcRead cs.length (ZDLEEscape cs) = (cs, []) := by
  rw [← List.append_nil (ZDLEEscape cs)]
  exact crcRead_escape cs []

/-- C7: parsing a built data subpacket returns exactly the payload and end
type and consumes the whole encoding, for both CRC modes. -/
theorem ParseDataSubpacket_BuildDataSubpacket
    (p : List Nat) (e : Nat) (u : Bool)
    (hlen : p.length ≤ 1024)
    (hbytes : ∀ b ∈ p, b < 256)
    (he : e = ZCRCEb ∨ e = ZCRCGb ∨ e = ZCRCQb ∨ e = ZCRCWb) :
    ParseDataSubpacket (BuildDataSubpacket p e u) u = some (p, e, []) := by
  cases u with
  | false =>
      have hv : CRC16 (p ++ [e]) 0 < 65536 := CRC16_lt _ _ (by norm_num)
      have h2 : (be16Bytes (CRC16 (p ++ [e]) 0)).length = 2 := rfl
      unfold BuildDataSubpacket ParseDataSubpacket
      simp only [Bool.false_eq_true, if_neg, ite_false, List.append_assoc, List.cons_append,
        List.nil_append]
      rw [spScan_escape_append p _ [] e he]
      simp only [List.nil_append]
      rw [← h2, crcRead_escape_nil]
      simp only [h2, lt_irrefl, ite_false]
      rw [beUint16_be16Bytes _ hv]
      simp
  | true =>
      have hv : CRC32 (p ++ [e]) 0xFFFFFFFF < 4294967296 := CRC32_lt _ _ (by norm_num)
      have h4 : (le32Bytes (CRC32 (p ++ [e]) 0xFFFFFFFF)).length = 4 := rfl
      unfold BuildDataSubpacket ParseDataSubpacket
      simp only [ite_true, List.append_assoc, List.cons_append, List.nil_append]
      rw [spScan_escape_append p _ [] e he]
      simp only [List.nil_append]
      rw [← h4, crcRead_escape_nil]
      simp only [h4, lt_irrefl, ite_false]
      rw [leUint32_le32Bytes _ hv]
      simp

/-- Witness for C7 at a concrete payload, end type and both CRC modes. -/
theorem ParseDataSubpacket_BuildDataSubpacket_witness :
    ([65, 24, 255] : List Nat).length ≤ 1024 ∧ (∀ b ∈ ([65, 24, 255] : List Nat), b < 256) ∧
    (ZCRCGb = ZCRCEb ∨ ZCRCGb = ZCRCGb ∨ ZCRCGb = ZCRCQb ∨ ZCRCGb = ZCRCWb) ∧
    ParseDataSubpacket (BuildDataSubpacket [65, 24, 255] ZCRCGb true) true =
      some ([65, 24, 255], ZCRCGb, []) := by
  refine ⟨by decide, by decide, by decide, ?_⟩
  exact ParseDataSubpacket_BuildDataSubpacket [65, 24, 255] ZCRCGb true (by decide) (by decide)
    (by decide)

/- ───────────────────────── ANSI screen (unnamed/part_002, package ansi) ───────────────────────── -/

def DefaultFG : Int := 7
def DefaultBG : Int := 0
def MaxCSIBuf : Nat := 1024

/-- Color of part_002: palette index (0-255, -1 when RGB) or direct RGB. -/
structure Color where
  Index : Int
  R : Nat
  G : Nat
  B : Nat
  IsRGB : Bool
deriving Repr, DecidableEq

def IndexColor (idx : Int) : Color := ⟨idx, 0, 0, 0, false⟩

def RGBColor (r g b : Nat) : Color := ⟨-1, r, g, b, true⟩

/-- Graphic attributes of a cell. -/
structure CellAttr where
  FG : Color
  BG : Color
  Bold : Bool
  Blink : Bool
  Reverse : Bool
  Underline : Bool
deriving Repr, DecidableEq

def DefaultAttr : CellAttr :=
  ⟨IndexColor DefaultFG, IndexColor DefaultBG, false, false, false, false⟩

/-- One terminal cell: character plus attributes. -/
structure Cell where
  Char : Char
  Attr : CellAttr
deriving Repr, DecidableEq

def NewCell : Cell := ⟨' ', DefaultAttr⟩

/-- Parser states of the Screen state machine. -/
inductive PState where
  | normal
  | esc
  | csi
  | osc
deriving Repr, DecidableEq

/-- The ANSI screen.  Cursor coordinates are Go ints; responses collects
the OnResponse callback payloads (DSR replies), most recent last. -/
structure Screen where
  Cols : Nat
  Rows : Nat
  CursorX : Int
  CursorY : Int
  Buffer : List (List Cell)
  savedX : Int
  savedY : Int
  attr : CellAttr
  state : PState
  csiBuf : List Char
  responses : List (List Char)
deriving Repr, DecidableEq

def newRow (cols : Nat) : List Cell := List.replicate cols NewCell

def newBuffer (rows cols : Nat) : List (List Cell) := List.replicate rows (newRow cols)

def NewScreen (cols rows : Nat) : Screen :=
  ⟨cols, rows, 0, 0, newBuffer rows cols, 0, 0, DefaultAttr, .normal, [], []⟩

/-- Reset of part_002: home cursor, default attribute, Normal state, clear
CSI buffer, fresh grid. -/
def screenReset (s : Screen) : Screen :=
  { s with CursorX := 0, CursorY := 0, attr := DefaultAttr, state := .normal, csiBuf := [],
           Buffer := newBuffer s.Rows s.Cols }

/-- Go slice-element assignment l[i] = v: out-of-range (or negative) index
panics, modelled as none. -/
def setRowAtI (buf : List (List Cell)) (i : Int) (row : List Cell) : Option (List (List Cell)) :=
  if 0 ≤ i ∧ i.toNat < buf.length then some (buf.set i.toNat row) else none

def setCellAtI (row : List Cell) (i : Int) (c : Cell) : Option (List Cell) :=
  if 0 ≤ i ∧ i.toNat < row.length then some (row.set i.toNat c) else none

def getRowAtI (buf : List (List Cell)) (i : Int) : Option (List Cell) :=
  if 0 ≤ i ∧ i.toNat < buf.length then some (buf[i.toNat]?.getD []) else none

/-- Go copy(dst, src): overwrite the first min(len dst, len src) elements
of dst with those of src, value semantics. -/
def goCopy {α : Type} (dst src : List α) : List α :=
  src.take dst.length ++ dst.drop src.length

/-- lineFeed of part_002: cursor down, or scroll up in the last row:
copy(Buffer, Buffer[1:]) then Buffer[Rows-1] = newRow(). -/
def lineFeed (s : Screen) : Option Screen :=
  if s.CursorY < (s.Rows : Int) - 1 then some { s with CursorY := s.CursorY + 1 }
  else
    match setRowAtI (goCopy s.Buffer (s.Buffer.drop 1)) ((s.Rows : Int) - 1) (newRow s.Cols) with
    | none => none
    | some b2 => some { s with Buffer := b2 }

/-- reverseLF of part_002: cursor up, or scroll down in the first row:
copy(Buffer[1:], Buffer) then Buffer[0] = newRow(). -/
def reverseLF (s : Screen) : Option Screen :=
  if s.CursorY > 0 then some { s with CursorY := s.CursorY - 1 }
  else
    match setRowAtI (s.Buffer.take 1 ++ goCopy (s.Buffer.drop 1) s.Buffer) 0 (newRow s.Cols) with
    | none => none
    | some b2 => some { s with Buffer := b2 }

/-- Write part of putChar: Buffer[CursorY][CursorX] gets the character
with a copy of the current attribute, then the cursor advances. -/
def putCharWrite (s1 : Screen) (ch : Char) : Option Screen :=
  match getRowAtI s1.Buffer s1.CursorY with
  | none => none
  | some row =>
    match setCellAtI row s1.CursorX ⟨ch, s1.attr⟩ with
    | none => none
    | some row2 =>
      match setRowAtI s1.Buffer s1.CursorY row2 with
      | none => none
      | some b2 => some { s1 with Buffer := b2, CursorX := s1.CursorX + 1 }

/-- putChar of part_002: wrap at the right edge (col 0 + line feed), then
write the character with a copy of the current attribute and advance. -/
def putChar (s : Screen) (ch : Char) : Option Screen :=
  if s.CursorX ≥ (s.Cols : Int) then
    match lineFeed { s with CursorX := 0 } with
    | none => none
    | some s1 => putCharWrite s1 ch
  else putCharWrite s ch

/-- Cell-write loop body, counted: n iterations of row[x] = NewCell()
with x incrementing. -/
def eraseCellsN (row : List Cell) (x : Int) : Nat → Option (List Cell)
  | 0 => some row
  | n + 1 =>
    match setCellAtI row x NewCell with
    | none => none
    | some r2 => eraseCellsN r2 (x + 1) n

/-- Write loop for x := from; x < stop; x++ setting cells to NewCell. -/
def eraseFromLoop (row : List Cell) (x stop : Int) : Option (List Cell) :=
  eraseCellsN row x (stop - x).toNat

/-- Write loop for x := from; x <= last; x++ setting cells to NewCell
(the inclusive loops of eraseDisplay mode 1 and eraseLine mode 1). -/
def eraseToLoop (row : List Cell) (x last : Int) : Option (List Cell) :=
  eraseCellsN row x (last + 1 - x).toNat

/-- Row-replacement loop body, counted: n iterations of
buf[y] = newRow() with y incrementing. -/
def blankRowsN (buf : List (List Cell)) (y : Int) (cols : Nat) :
    Nat → Option (List (List Cell))
  | 0 => some buf
  | n + 1 =>
    match setRowAtI buf y (newRow cols) with
    | none => none
    | some b2 => blankRowsN b2 (y + 1) cols n

/-- Row-replacement loop for y := from; y < stop; y++ setting rows to
newRow(). -/
def blankRowsLoop (buf : List (List Cell)) (y stop : Int) (cols : Nat) :
    Option (List (List Cell)) :=
  blankRowsN buf y cols (stop - y).toNat

/-- eraseDisplay of part_002. -/
def eraseDisplay (s : Screen) (mode : Int) : Option Screen :=
  if mode = 0 then
    match getRowAtI s.Buffer s.CursorY with
    | none => none
    | some row =>
      match eraseFromLoop row s.CursorX (s.Cols : Int) with
      | none => none
      | some row2 =>
        match setRowAtI s.Buffer s.CursorY row2 with
        | none => none
        | some b2 =>
          match blankRowsLoop b2 (s.CursorY + 1) (s.Rows : Int) s.Cols with
          | none => none
          | some b3 => some { s with Buffer := b3 }
  else if mode = 1 then
    match getRowAtI s.Buffer s.CursorY with
    | none => none
    | some row =>
      match eraseToLoop row 0 s.CursorX with
      | none => none
      | some row2 =>
        match setRowAtI s.Buffer s.CursorY row2 with
        | none => none
        | some b2 =>
          match blankRowsLoop b2 0 s.CursorY s.Cols with
          | none => none
          | some b3 => some { s with Buffer := b3 }
  else if mode = 2 then some { s with Buffer := newBuffer s.Rows s.Cols }
  else some s

/-- eraseLine of part_002. -/
def eraseLine (s : Screen) (mode : Int) : Option Screen :=
  if mode = 0 then
    match getRowAtI s.Buffer s.CursorY with
    | none => none
    | some row =>
      match eraseFromLoop row s.CursorX (s.Cols : Int) with
      | none => none
      | some row2 =>
        match setRowAtI s.Buffer s.CursorY row2 with
        | none => none
        | some b2 => some { s with Buffer := b2 }
  else if mode = 1 then
    match getRowAtI s.Buffer s.CursorY with
    | none => none
    | some row =>
      match eraseToLoop row 0 s.CursorX with
      | none => none
      | some row2 =>
        match setRowAtI s.Buffer s.CursorY row2 with
        | none => none
        | some b2 => some { s with Buffer := b2 }
  else if mode = 2 then
    match setRowAtI s.Buffer s.CursorY (newRow s.Cols) with
    | none => none
    | some b2 => some { s with Buffer := b2 }
  else some s

/-- Go uint8 conversion of an int. -/
def toU8 (x : Int) : Nat := (x % 256).toNat

/-- SGR parameter loop of part_002 (sgr): processed left to right, with the
38/48 extended-color forms consuming 2 or 4 extra parameters. -/
def sgrLoop (a : CellAttr) : List Int → CellAttr
  | [] => a
  | p :: rest =>
    if p = 0 then sgrLoop DefaultAttr rest
    else if p = 1 then sgrLoop { a with Bold := true } rest
    else if p = 2 then sgrLoop { a with Bold := false } rest
    else if p = 4 then sgrLoop { a with Underline := true } rest
    else if p = 5 ∨ p = 6 then sgrLoop { a with Blink := true } rest
    else if p = 7 then sgrLoop { a with Reverse := true } rest
    else if p = 22 then sgrLoop { a with Bold := false } rest
    else if p = 24 then sgrLoop { a with Underline := false } rest
    else if p = 25 then sgrLoop { a with Blink := false } rest
    else if p = 27 then sgrLoop { a with Reverse := false } rest
    else if 30 ≤ p ∧ p ≤ 37 then sgrLoop { a with FG := IndexColor (p - 30) } rest
    else if p = 38 then
      match rest with
      | 5 :: nn :: rest2 => sgrLoop { a with FG := IndexColor nn } rest2
      | 2 :: r :: g :: b :: rest3 =>
          sgrLoop { a with FG := RGBColor (toU8 r) (toU8 g) (toU8 b) } rest3
      | other => sgrLoop a other
    else if p = 39 then sgrLoop { a with FG := IndexColor DefaultFG } rest
    else if 40 ≤ p ∧ p ≤ 47 then sgrLoop { a with BG := IndexColor (p - 40) } rest
    else if p = 48 then
      match rest with
      | 5 :: nn :: rest2 => sgrLoop { a with BG := IndexColor nn } rest2
      | 2 :: r :: g :: b :: rest3 =>
          sgrLoop { a with BG := RGBColor (toU8 r) (toU8 g) (toU8 b) } rest3
      | other => sgrLoop a other
    else if p = 49 then sgrLoop { a with BG := IndexColor DefaultBG } rest
    else if 90 ≤ p ∧ p ≤ 97 then sgrLoop { a with FG := IndexColor (p - 90 + 8) } rest
    else if 100 ≤ p ∧ p ≤ 107 then sgrLoop { a with BG := IndexColor (p - 100 + 8) } rest
    else sgrLoop a rest

/-- strings.Split on ';' (keeping empty parts). -/
def splitSemiAux : List Char → List Char → List (List Char)
  | acc, [] => [acc]
  | acc, c :: rest =>
    if c = ';' then acc :: splitSemiAux [] rest else splitSemiAux (acc ++ [c]) rest

def splitSemi (l : List Char) : List (List Char) := splitSemiAux [] l

/-- strconv.Atoi: optional sign, decimal digits only, 64-bit range. -/
def goAtoi (cs : List Char) : Option Int :=
  let core : Bool → List Char → Option Int := fun neg ds =>
    if ds = [] ∨ ¬ ds.all (fun c => decide ('0' ≤ c ∧ c ≤ '9')) then none
    else
      let v : Nat := ds.foldl (fun a c => a * 10 + (c.toNat - 48)) 0
      if neg then (if v ≤ 9223372036854775808 then some (-(v : Int)) else none)
      else (if v ≤ 9223372036854775807 then some (v : Int) else none)
  match cs with
  | [] => none
  | '+' :: rest => core false rest
  | '-' :: rest => core true rest
  | _ => core false cs

/-- parseParams of part_002: trim leading question marks, split on ';',
Atoi with the given default for empty or invalid parts. -/
def parseParams (buf : List Char) (defaultVal : Int) : List Int :=
  let raw := buf.dropWhile (fun c => c = '?')
  if raw = [] then [defaultVal]
  else
    (splitSemi raw).map (fun part =>
      if part = [] then defaultVal
      else match goAtoi part with
        | some v => v
        | none => defaultVal)

/-- safeParam of part_002. -/
def safeParam (params : List Int) (index : Nat) (defaultVal : Int) : Int :=
  params.getD index defaultVal

/-- Two's-complement wrap to Go's 64-bit int range. -/
def wrap64 (x : Int) : Int := (x + 2 ^ 63) % 2 ^ 64 - 2 ^ 63

/-- Go int addition: wraps at 64 bits. -/
def goAdd (a b : Int) : Int := wrap64 (a + b)

/-- Go int subtraction: wraps at 64 bits. -/
def goSub (a b : Int) : Int := wrap64 (a - b)

/-- Iterated scroll-up of the CSI S loop body. -/
def scrollUpN (s : Screen) : Nat → Option Screen
  | 0 => some s
  | n + 1 =>
    match setRowAtI (goCopy s.Buffer (s.Buffer.drop 1)) ((s.Rows : Int) - 1) (newRow s.Cols) with
    | none => none
    | some b2 => scrollUpN { s with Buffer := b2 } n

/-- Iterated scroll-down of the CSI T loop body. -/
def scrollDownN (s : Screen) : Nat → Option Screen
  | 0 => some s
  | n + 1 =>
    match setRowAtI (s.Buffer.take 1 ++ goCopy (s.Buffer.drop 1) s.Buffer) 0 (newRow s.Cols) with
    | none => none
    | some b2 => scrollDownN { s with Buffer := b2 } n

/-- Cursor-position report emitted for DSR 6. -/
def dsrReport (s : Screen) : List Char :=
  '\x1b' :: '[' :: ((toString (goAdd s.CursorY 1)).toList ++ [';'] ++
    (toString (goAdd s.CursorX 1)).toList ++ ['R'])

/-- Dispatch body of execCSI, parametrized by the parsed parameter list
(p0 is params[0], which parseParams guarantees to exist).  The Go switch on
the final byte becomes a match. -/
def execCSIWith (s : Screen) (cmd : Char) (params : List Int) : Option Screen :=
  let p0 := params.headD 0
  match cmd with
  | 'm' => some { s with attr := sgrLoop s.attr params }
  | 'H' | 'f' =>
    let r := max 1 (safeParam params 0 1)
    let c := max 1 (safeParam params 1 1)
    some { s with CursorY := min (goSub r 1) (goSub (s.Rows : Int) 1),
                  CursorX := min (goSub c 1) (goSub (s.Cols : Int) 1) }
  | 'A' => some { s with CursorY := max 0 (goSub s.CursorY (max 1 p0)) }
  | 'B' => some { s with CursorY := min (goSub (s.Rows : Int) 1) (goAdd s.CursorY (max 1 p0)) }
  | 'C' => some { s with CursorX := min (goSub (s.Cols : Int) 1) (goAdd s.CursorX (max 1 p0)) }
  | 'D' => some { s with CursorX := max 0 (goSub s.CursorX (max 1 p0)) }
  | 'E' =>
    some { s with CursorX := 0,
                  CursorY := min (goSub (s.Rows : Int) 1) (goAdd s.CursorY (max 1 p0)) }
  | 'F' =>
    some { s with CursorX := 0, CursorY := max 0 (goSub s.CursorY (max 1 p0)) }
  | 'G' => some { s with CursorX := min (goSub (max 1 p0) 1) (goSub (s.Cols : Int) 1) }
  | 'J' => eraseDisplay s p0
  | 'K' => eraseLine s p0
  | 'S' => scrollUpN s (max 1 p0).toNat
  | 'T' => scrollDownN s (max 1 p0).toNat
  | 's' => some { s with savedX := s.CursorX, savedY := s.CursorY }
  | 'u' => some { s with CursorX := s.savedX, CursorY := s.savedY }
  | 'n' =>
    if p0 = 6 then some { s with responses := s.responses ++ [dsrReport s] }
    else if p0 = 5 then some { s with responses := s.responses ++ [['\x1b', '[', '0', 'n']] }
    else some s
  | _ => some s

/-- execCSI of part_002: dispatch on the final byte with the parameters
accumulated in the CSI buffer (default 0). -/
def execCSI (s : Screen) (cmd : Char) : Option Screen :=
  execCSIWith s cmd (parseParams s.csiBuf 0)

/-- process of part_002: one rune through the parser state machine.  The
result is none exactly when the Go code would panic (reachable: the
inclusive x <= CursorX erase loops with CursorX = Cols). -/
def processChar (s : Screen) (ch : Char) : Option Screen :=
  match s.state with
  | .normal =>
    if ch.toNat = 0x1B then some { s with state := .esc }
    else if ch.toNat = 0x0D then some { s with CursorX := 0 }
    else if ch.toNat = 0x0A then lineFeed s
    else if ch.toNat = 0x08 then
      some (if s.CursorX > 0 then { s with CursorX := s.CursorX - 1 } else s)
    else if ch.toNat = 0x09 then
      some { s with CursorX := min (goAdd s.CursorX (goSub 8 (Int.tmod s.CursorX 8)))
                                   (goSub (s.Cols : Int) 1) }
    else if ch.toNat = 0x07 then some s
    else if ch.toNat ≥ 0x20 then putChar s ch
    else some s
  | .esc =>
    if ch = '[' then some { s with state := .csi, csiBuf := [] }
    else if ch = ']' then some { s with state := .osc, csiBuf := [] }
    else if ch = 'D' then (lineFeed s).map (fun s2 => { s2 with state := .normal })
    else if ch = 'M' then (reverseLF s).map (fun s2 => { s2 with state := .normal })
    else if ch = 'E' then
      (lineFeed { s with CursorX := 0 }).map (fun s2 => { s2 with state := .normal })
    else if ch = '7' then
      some { s with savedX := s.CursorX, savedY := s.CursorY, state := .normal }
    else if ch = '8' then
      some { s with CursorX := s.savedX, CursorY := s.savedY, state := .normal }
    else if ch = 'c' then some (screenReset s)
    else some { s with state := .normal }
  | .csi =>
    if ('0' ≤ ch ∧ ch ≤ '9') ∨ ch = ';' ∨ ch = '?' then
      if s.csiBuf.length < MaxCSIBuf then some { s with csiBuf := s.csiBuf ++ [ch] }
      else some { s with state := .normal, csiBuf := [] }
    else (execCSI s ch).map (fun s2 => { s2 with state := .normal })
  | .osc =>
    if ch.toNat = 0x07 ∨ ch.toNat = 0x1B then some { s with state := .normal }
    else some s

/-- Feed of part_002: process every rune of the input in order; none when
a rune panics. -/
def screenFeed (s : Screen) : List Char → Option Screen
  | [] => some s
  | c :: cs =>
    match processChar s c with
    | none => none
    | some s2 => screenFeed s2 cs

/-- A sequence of Feed calls. -/
def screenFeedAll (s : Screen) : List (List Char) → Option Screen
  | [] => some s
  | t :: ts =>
    match screenFeed s t with
    | none => none
    | some s2 => screenFeedAll s2 ts

/- ───────────────────────── Screen invariants (C6) ───────────────────────── -/

/-- Shape and cursor invariant of the screen, relative to the construction
dimensions. -/
def ScreenOK (cols rows : Nat) (s : Screen) : Prop :=
  s.Cols = cols ∧ s.Rows = rows ∧ 1 ≤ s.Cols ∧
  s.Buffer.length = s.Rows ∧
  (∀ r ∈ s.Buffer, r.length = s.Cols) ∧
  0 ≤ s.CursorX ∧ s.CursorX ≤ (s.Cols : Int) ∧
  0 ≤ s.CursorY ∧ s.CursorY < (s.Rows : Int) ∧
  0 ≤ s.savedX ∧ s.savedX ≤ (s.Cols : Int) ∧
  0 ≤ s.savedY ∧ s.savedY < (s.Rows : Int)

theorem goCopy_length {α : Type} (dst src : List α) : (goCopy dst src).length = dst.length := by
  simp [goCopy]
  omega

theorem goCopy_mem {α : Type} {dst src : List α} {x : α} (h : x ∈ goCopy dst src) :
    x ∈ dst ∨ x ∈ src := by
  rcases List.mem_append.mp h with h | h
  · exact Or.inr (List.mem_of_mem_take h)
  · exact Or.inl (List.mem_of_mem_drop h)

theorem setRowAtI_spec {buf : List (List Cell)} {i : Int} {row : List Cell}
    {b2 : List (List Cell)} (h : setRowAtI buf i row = some b2) :
    b2.length = buf.length ∧ ∀ r ∈ b2, r ∈ buf ∨ r = row := by
  unfold setRowAtI at h
  split at h
  · cases h
    exact ⟨List.length_set _ _ _, fun r hr => List.mem_or_eq_of_mem_set hr⟩
  · cases h

theorem setCellAtI_spec {row : List Cell} {i : Int} {c : Cell} {r2 : List Cell}
    (h : setCellAtI row i c = some r2) :
    r2.length = row.length ∧ 0 ≤ i ∧ i.toNat < row.length := by
  unfold setCellAtI at h
  split at h
  · cases h
    next hcond => exact ⟨List.length_set _ _ _, hcond.1, hcond.2⟩
  · cases h

theorem getRowAtI_spec {buf : List (List Cell)} {i : Int} {row : List Cell}
    (h : getRowAtI buf i = some row) : row ∈ buf := by
  unfold getRowAtI at h
  split at h
  · cases h
    next hcond =>
      have hlt : i.toNat < buf.length := hcond.2
      rw [List.getElem?_eq_getElem hlt]
      exact List.getElem_mem hlt
  · cases h

theorem eraseCellsN_length :
    ∀ (n : Nat) (row : List Cell) (x : Int) (r2 : List Cell),
      eraseCellsN row x n = some r2 → r2.length = row.length := by
  intro n
  induction n with
  | zero => intro row x r2 h; cases h; rfl
  | succ k ih =>
      intro row x r2 h
      simp only [eraseCellsN] at h
      rcases hset : setCellAtI row x NewCell with _ | r3
      · rw [hset] at h; cases h
      · rw [hset] at h
        have hlen := (setCellAtI_spec hset).1
        have := ih r3 (x + 1) r2 h
        omega

theorem eraseFromLoop_length {row : List Cell} {x stop : Int} {r2 : List Cell}
    (h : eraseFromLoop row x stop = some r2) : r2.length = row.length :=
  eraseCellsN_length _ row x r2 h

theorem eraseToLoop_length {row : List Cell} {x last : Int} {r2 : List Cell}
    (h : eraseToLoop row x last = some r2) : r2.length = row.length :=
  eraseCellsN_length _ row x r2 h

theorem blankRowsN_spec :
    ∀ (n : Nat) (buf : List (List Cell)) (y : Int) (cols : Nat) (b2 : List (List Cell)),
      blankRowsN buf y cols n = some b2 →
      b2.length = buf.length ∧ ∀ r ∈ b2, r ∈ buf ∨ r = newRow cols := by
  intro n
  induction n with
  | zero => intro buf y cols b2 h; cases h; exact ⟨rfl, fun r hr => Or.inl hr⟩
  | succ k ih =>
      intro buf y cols b2 h
      simp only [blankRowsN] at h
      rcases hset : setRowAtI buf y (newRow cols) with _ | b3
      · rw [hset] at h; cases h
      · rw [hset] at h
        obtain ⟨hlen3, hmem3⟩ := setRowAtI_spec hset
        obtain ⟨hlen2, hmem2⟩ := ih b3 (y + 1) cols b2 h
        refine ⟨by omega, fun r hr => ?_⟩
        rcases hmem2 r hr with h2 | h2
        · exact hmem3 r h2
        · exact Or.inr h2

theorem blankRowsLoop_spec {buf : List (List Cell)} {y stop : Int} {cols : Nat}
    {b2 : List (List Cell)} (h : blankRowsLoop buf y stop cols = some b2) :
    b2.length = buf.length ∧ ∀ r ∈ b2, r ∈ buf ∨ r = newRow cols :=
  blankRowsN_spec _ buf y cols b2 h

theorem newRow_length (cols : Nat) : (newRow cols).length = cols := by
  simp [newRow]

theorem newBuffer_spec (rows cols : Nat) :
    (newBuffer rows cols).length = rows ∧ ∀ r ∈ newBuffer rows cols, r.length = cols := by
  constructor
  · simp [newBuffer]
  · intro r hr
    rw [List.eq_of_mem_replicate hr]
    exact newRow_length cols

theorem lineFeed_ok {cols rows : Nat} {s s' : Screen} (h : ScreenOK cols rows s)
    (hl : lineFeed s = some s') : ScreenOK cols rows s' := by
  obtain ⟨hC, hR, hc1, hbl, hrw, hx0, hx1, hy0, hy1, hsx0, hsx1, hsy0, hsy1⟩ := h
  unfold lineFeed at hl
  split at hl
  · cases hl
    exact ⟨hC, hR, hc1, hbl, hrw, hx0, hx1, by dsimp only; omega, by dsimp only; omega, hsx0, hsx1, hsy0, hsy1⟩
  · rcases hset : setRowAtI (goCopy s.Buffer (s.Buffer.drop 1)) ((s.Rows : Int) - 1)
        (newRow s.Cols) with _ | b2
    · rw [hset] at hl; cases hl
    · rw [hset] at hl
      cases hl
      obtain ⟨hlen2, hmem2⟩ := setRowAtI_spec hset
      refine ⟨hC, hR, hc1, ?_, ?_, hx0, hx1, hy0, hy1, hsx0, hsx1, hsy0, hsy1⟩
      · show b2.length = s.Rows
        rw [hlen2, goCopy_length]
        exact hbl
      · intro r hr
        rcases hmem2 r hr with h2 | h2
        · rcases goCopy_mem h2 with h3 | h3
          · exact hrw r h3
          · exact hrw r (List.mem_of_mem_drop h3)
        · rw [h2]; exact newRow_length _

theorem reverseLF_ok {cols rows : Nat} {s s' : Screen} (h : ScreenOK cols rows s)
    (hl : reverseLF s = some s') : ScreenOK cols rows s' := by
  obtain ⟨hC, hR, hc1, hbl, hrw, hx0, hx1, hy0, hy1, hsx0, hsx1, hsy0, hsy1⟩ := h
  unfold reverseLF at hl
  split at hl
  · cases hl
    exact ⟨hC, hR, hc1, hbl, hrw, hx0, hx1, by dsimp only; omega, by dsimp only; omega, hsx0, hsx1, hsy0, hsy1⟩
  · rcases hset : setRowAtI (s.Buffer.take 1 ++ goCopy (s.Buffer.drop 1) s.Buffer) 0
        (newRow s.Cols) with _ | b2
    · rw [hset] at hl; cases hl
    · rw [hset] at hl
      cases hl
      obtain ⟨hlen2, hmem2⟩ := setRowAtI_spec hset
      refine ⟨hC, hR, hc1, ?_, ?_, hx0, hx1, hy0, hy1, hsx0, hsx1, hsy0, hsy1⟩
      · show b2.length = s.Rows
        rw [hlen2]
        simp only [List.length_append, List.length_take, goCopy_length, List.length_drop]
        omega
      · intro r hr
        rcases hmem2 r hr with h2 | h2
        · rcases List.mem_append.mp h2 with h3 | h3
          · exact hrw r (List.mem_of_mem_take h3)
          · rcases goCopy_mem h3 with h4 | h4
            · exact hrw r (List.mem_of_mem_drop h4)
            · exact hrw r h4
        · rw [h2]; exact newRow_length _

theorem scrollUpN_ok {cols rows : Nat} :
    ∀ (n : Nat) {s s' : Screen}, ScreenOK cols rows s → scrollUpN s n = some s' →
      ScreenOK cols rows s' := by
  intro n
  induction n with
  | zero => intro s s' h hl; cases hl; exact h
  | succ k ih =>
      intro s s' h hl
      obtain ⟨hC, hR, hc1, hbl, hrw, hx0, hx1, hy0, hy1, hsx0, hsx1, hsy0, hsy1⟩ := h
      simp only [scrollUpN] at hl
      rcases hset : setRowAtI (goCopy s.Buffer (s.Buffer.drop 1)) ((s.Rows : Int) - 1)
          (newRow s.Cols) with _ | b2
      · rw [hset] at hl; cases hl
      · rw [hset] at hl
        obtain ⟨hlen2, hmem2⟩ := setRowAtI_spec hset
        refine ih ?_ hl
        refine ⟨hC, hR, hc1, ?_, ?_, hx0, hx1, hy0, hy1, hsx0, hsx1, hsy0, hsy1⟩
        · show b2.length = s.Rows
          rw [hlen2, goCopy_length]
          exact hbl
        · intro r hr
          rcases hmem2 r hr with h2 | h2
          · rcases goCopy_mem h2 with h3 | h3
            · exact hrw r h3
            · exact hrw r (List.mem_of_mem_drop h3)
          · rw [h2]; exact newRow_length _

theorem scrollDownN_ok {cols rows : Nat} :
    ∀ (n : Nat) {s s' : Screen}, ScreenOK cols rows s → scrollDownN s n = some s' →
      ScreenOK cols rows s' := by
  intro n
  induction n with
  | zero => intro s s' h hl; cases hl; exact h
  | succ k ih =>
      intro s s' h hl
      obtain ⟨hC, hR, hc1, hbl, hrw, hx0, hx1, hy0, hy1, hsx0, hsx1, hsy0, hsy1⟩ := h
      simp only [scrollDownN] at hl
      rcases hset : setRowAtI (s.Buffer.take 1 ++ goCopy (s.Buffer.drop 1) s.Buffer) 0
          (newRow s.Cols) with _ | b2
      · rw [hset] at hl; cases hl
      · rw [hset] at hl
        obtain ⟨hlen2, hmem2⟩ := setRowAtI_spec hset
        refine ih ?_ hl
        refine ⟨hC, hR, hc1, ?_, ?_, hx0, hx1, hy0, hy1, hsx0, hsx1, hsy0, hsy1⟩
        · show b2.length = s.Rows
          rw [hlen2]
          simp only [List.length_append, List.length_take, goCopy_length, List.length_drop]
          omega
        · intro r hr
          rcases hmem2 r hr with h2 | h2
          · rcases List.mem_append.mp h2 with h3 | h3
            · exact hrw r (List.mem_of_mem_take h3)
            · rcases goCopy_mem h3 with h4 | h4
              · exact hrw r (List.mem_of_mem_drop h4)
              · exact hrw r h4
          · rw [h2]; exact newRow_length _

theorem putCharWrite_ok {cols rows : Nat} {s s' : Screen} {ch : Char}
    (h : ScreenOK cols rows s) (hp : putCharWrite s ch = some s') : ScreenOK cols rows s' := by
  obtain ⟨hC, hR, hc1, hbl, hrw, hx0, hx1, hy0, hy1, hsx0, hsx1, hsy0, hsy1⟩ := h
  unfold putCharWrite at hp
  rcases hget : getRowAtI s.Buffer s.CursorY with _ | row
  · rw [hget] at hp; cases hp
  · rw [hget] at hp
    dsimp only at hp
    rcases hsetc : setCellAtI row s.CursorX ⟨ch, s.attr⟩ with _ | row2
    · rw [hsetc] at hp; cases hp
    · rw [hsetc] at hp
      dsimp only at hp
      rcases hsetr : setRowAtI s.Buffer s.CursorY row2 with _ | b2
      · rw [hsetr] at hp; cases hp
      · rw [hsetr] at hp
        cases hp
        have hrowlen : row.length = s.Cols := hrw row (getRowAtI_spec hget)
        obtain ⟨hlen2, hxx0, hxlt⟩ := setCellAtI_spec hsetc
        obtain ⟨hlenb, hmemb⟩ := setRowAtI_spec hsetr
        refine ⟨hC, hR, hc1, ?_, ?_, by dsimp only; omega, by dsimp only; omega, hy0, hy1, hsx0, hsx1, hsy0, hsy1⟩
        · show b2.length = s.Rows
          rw [hlenb]; exact hbl
        · intro r hr
          rcases hmemb r hr with h2 | h2
          · exact hrw r h2
          · rw [h2, hlen2]; exact hrowlen

theorem putChar_ok {cols rows : Nat} {s s' : Screen} {ch : Char}
    (h : ScreenOK cols rows s) (hp : putChar s ch = some s') : ScreenOK cols rows s' := by
  unfold putChar at hp
  split at hp
  · rcases hlf : lineFeed { s with CursorX := 0 } with _ | s1
    · rw [hlf] at hp; cases hp
    · rw [hlf] at hp
      obtain ⟨hC, hR, hc1, hbl, hrw, hx0, hx1, hy0, hy1, hsx0, hsx1, hsy0, hsy1⟩ := h
      have h0 : ScreenOK cols rows { s with CursorX := 0 } :=
        ⟨hC, hR, hc1, hbl, hrw, by dsimp only; omega, by dsimp only; omega, hy0, hy1, hsx0, hsx1, hsy0, hsy1⟩
      exact putCharWrite_ok (lineFeed_ok h0 hlf) hp
  · exact putCharWrite_ok h hp

theorem eraseDisplay_ok {cols rows : Nat} {s s' : Screen} {mode : Int}
    (h : ScreenOK cols rows s) (hp : eraseDisplay s mode = some s') : ScreenOK cols rows s' := by
  obtain ⟨hC, hR, hc1, hbl, hrw, hx0, hx1, hy0, hy1, hsx0, hsx1, hsy0, hsy1⟩ := h
  unfold eraseDisplay at hp
  split_ifs at hp
  · rcases hget : getRowAtI s.Buffer s.CursorY with _ | row
    · rw [hget] at hp; cases hp
    · rw [hget] at hp
      dsimp only at hp
      rcases hloop : eraseFromLoop row s.CursorX (s.Cols : Int) with _ | row2
      · rw [hloop] at hp; cases hp
      · rw [hloop] at hp
        dsimp only at hp
        rcases hsetr : setRowAtI s.Buffer s.CursorY row2 with _ | b2
        · rw [hsetr] at hp; cases hp
        · rw [hsetr] at hp
          dsimp only at hp
          rcases hblank : blankRowsLoop b2 (s.CursorY + 1) (s.Rows : Int) s.Cols with _ | b3
          · rw [hblank] at hp; cases hp
          · rw [hblank] at hp
            cases hp
            have hrowlen : row.length = s.Cols := hrw row (getRowAtI_spec hget)
            have hlen2 := eraseFromLoop_length hloop
            obtain ⟨hlenb, hmemb⟩ := setRowAtI_spec hsetr
            obtain ⟨hlen3, hmem3⟩ := blankRowsLoop_spec hblank
            refine ⟨hC, hR, hc1, ?_, ?_, hx0, hx1, hy0, hy1, hsx0, hsx1, hsy0, hsy1⟩
            · show b3.length = s.Rows
              omega
            · intro r hr
              rcases hmem3 r hr with h2 | h2
              · rcases hmemb r h2 with h3 | h3
                · exact hrw r h3
                · rw [h3]; dsimp only; omega
              · rw [h2]; exact newRow_length _
  · rcases hget : getRowAtI s.Buffer s.CursorY with _ | row
    · rw [hget] at hp; cases hp
    · rw [hget] at hp
      dsimp only at hp
      rcases hloop : eraseToLoop row 0 s.CursorX with _ | row2
      · rw [hloop] at hp; cases hp
      · rw [hloop] at hp
        dsimp only at hp
        rcases hsetr : setRowAtI s.Buffer s.CursorY row2 with _ | b2
        · rw [hsetr] at hp; cases hp
        · rw [hsetr] at hp
          dsimp only at hp
          rcases hblank : blankRowsLoop b2 0 s.CursorY s.Cols with _ | b3
          · rw [hblank] at hp; cases hp
          · rw [hblank] at hp
            cases hp
            have hrowlen : row.length = s.Cols := hrw row (getRowAtI_spec hget)
            have hlen2 := eraseToLoop_length hloop
            obtain ⟨hlenb, hmemb⟩ := setRowAtI_spec hsetr
            obtain ⟨hlen3, hmem3⟩ := blankRowsLoop_spec hblank
            refine ⟨hC, hR, hc1, ?_, ?_, hx0, hx1, hy0, hy1, hsx0, hsx1, hsy0, hsy1⟩
            · show b3.length = s.Rows
              omega
            · intro r hr
              rcases hmem3 r hr with h2 | h2
              · rcases hmemb r h2 with h3 | h3
                · exact hrw r h3
                · rw [h3]; dsimp only; omega
              · rw [h2]; exact newRow_length _
  · cases hp
    obtain ⟨hnbl, hnbr⟩ := newBuffer_spec s.Rows s.Cols
    exact ⟨hC, hR, hc1, hnbl, hnbr, hx0, hx1, hy0, hy1, hsx0, hsx1, hsy0, hsy1⟩
  · cases hp
    exact ⟨hC, hR, hc1, hbl, hrw, hx0, hx1, hy0, hy1, hsx0, hsx1, hsy0, hsy1⟩

theorem eraseLine_ok {cols rows : Nat} {s s' : Screen} {mode : Int}
    (h : ScreenOK cols rows s) (hp : eraseLine s mode = some s') : ScreenOK cols rows s' := by
  obtain ⟨hC, hR, hc1, hbl, hrw, hx0, hx1, hy0, hy1, hsx0, hsx1, hsy0, hsy1⟩ := h
  unfold eraseLine at hp
  split_ifs at hp
  · rcases hget : getRowAtI s.Buffer s.CursorY with _ | row
    · rw [hget] at hp; cases hp
    · rw [hget] at hp
      dsimp only at hp
      rcases hloop : eraseFromLoop row s.CursorX (s.Cols : Int) with _ | row2
      · rw [hloop] at hp; cases hp
      · rw [hloop] at hp
        dsimp only at hp
        rcases hsetr : setRowAtI s.Buffer s.CursorY row2 with _ | b2
        · rw [hsetr] at hp; cases hp
        · rw [hsetr] at hp
          cases hp
          have hrowlen : row.length = s.Cols := hrw row (getRowAtI_spec hget)
          have hlen2 := eraseFromLoop_length hloop
          obtain ⟨hlenb, hmemb⟩ := setRowAtI_spec hsetr
          refine ⟨hC, hR, hc1, ?_, ?_, hx0, hx1, hy0, hy1, hsx0, hsx1, hsy0, hsy1⟩
          · show b2.length = s.Rows
            omega
          · intro r hr
            rcases hmemb r hr with h2 | h2
            · exact hrw r h2
            · rw [h2]; dsimp only; omega
  · rcases hget : getRowAtI s.Buffer s.CursorY with _ | row
    · rw [hget] at hp; cases hp
    · rw [hget] at hp
      dsimp only at hp
      rcases hloop : eraseToLoop row 0 s.CursorX with _ | row2
      · rw [hloop] at hp; cases hp
      · rw [hloop] at hp
        dsimp only at hp
        rcases hsetr : setRowAtI s.Buffer s.CursorY row2 with _ | b2
        · rw [hsetr] at hp; cases hp
        · rw [hsetr] at hp
          cases hp
          have hrowlen : row.length = s.Cols := hrw row (getRowAtI_spec hget)
          have hlen2 := eraseToLoop_length hloop
          obtain ⟨hlenb, hmemb⟩ := setRowAtI_spec hsetr
          refine ⟨hC, hR, hc1, ?_, ?_, hx0, hx1, hy0, hy1, hsx0, hsx1, hsy0, hsy1⟩
          · show b2.length = s.Rows
            omega
          · intro r hr
            rcases hmemb r hr with h2 | h2
            · exact hrw r h2
            · rw [h2]; dsimp only; omega
  · rcases hsetr : setRowAtI s.Buffer s.CursorY (newRow s.Cols) with _ | b2
    · rw [hsetr] at hp; cases hp
    · rw [hsetr] at hp
      cases hp
      obtain ⟨hlenb, hmemb⟩ := setRowAtI_spec hsetr
      refine ⟨hC, hR, hc1, ?_, ?_, hx0, hx1, hy0, hy1, hsx0, hsx1, hsy0, hsy1⟩
      · show b2.length = s.Rows
        omega
      · intro r hr
        rcases hmemb r hr with h2 | h2
        · exact hrw r h2
        · rw [h2]; exact newRow_length _
  · cases hp
    exact ⟨hC, hR, hc1, hbl, hrw, hx0, hx1, hy0, hy1, hsx0, hsx1, hsy0, hsy1⟩

theorem NewScreen_ok (cols rows : Nat) (hc : 1 ≤ cols) (hr : 1 ≤ rows) :
    ScreenOK cols rows (NewScreen cols rows) := by
  obtain ⟨hnbl, hnbr⟩ := newBuffer_spec rows cols
  exact ⟨rfl, rfl, hc, hnbl, hnbr, le_refl 0, by dsimp only [NewScreen]; omega,
    le_refl 0, by dsimp only [NewScreen]; omega, le_refl 0, by dsimp only [NewScreen]; omega,
    le_refl 0, by dsimp only [NewScreen]; omega⟩

/-- C6: the claimed grid/cursor invariant fails on the program's real
64-bit cursor arithmetic.  Placing the cursor on row 1 and then sending
CSI 9223372036854775807 B completes the Feed normally, but the int64
addition CursorY + max(1, params[0]) wraps to -2^63 and min keeps the
negative value, violating 0 <= CursorY; and the inclusive erase loops
make CSI 1 K panic (index Cols of a Cols-cell row) when CursorX = Cols,
so not every Feed sequence even completes. -/
theorem screen_cursor_invariant_fails :
    ((screenFeedAll (NewScreen 2 2)
        ["\x1b[2;1H".toList, "\x1b[9223372036854775807B".toList]).map Screen.CursorY)
      = some (-(2 ^ 63)) ∧
    (-(2 ^ 63) : Int) < 0 ∧
    screenFeedAll (NewScreen 2 2) ["ab\x1b[1K".toList] = none := by
  refine ⟨by decide, by decide, by decide⟩

/- ───────────────────────── ZMODEM receiver: filename and path handling (unnamed/part_003) ───────────────────────── -/

/-- Bytes of a Lean string literal (ASCII), for readable concrete inputs. -/
def strBytes (s : String) : List Nat := s.toList.map Char.toNat

/-- splitNull of part_003: split a byte slice at NUL bytes; a trailing
segment is kept only when non-empty. -/
def splitNullAux (acc : List Nat) : List Nat → List (List Nat)
  | [] => if acc.isEmpty then [] else [acc]
  | b :: rest => if b = 0 then acc :: splitNullAux [] rest else splitNullAux (acc ++ [b]) rest

def splitNull (data : List Nat) : List (List Nat) := splitNullAux [] data

/-- Byte class of the sanitization regexp a-zA-Z0-9._- (safeFilenameRe
matches the complement). -/
def isSafeByte (b : Nat) : Bool :=
  (97 ≤ b ∧ b ≤ 122) ∨ (65 ≤ b ∧ b ≤ 90) ∨ (48 ≤ b ∧ b ≤ 57) ∨ b = 46 ∨ b = 95 ∨ b = 45

/-- strings.ReplaceAll(name, "\\", "/"). -/
def replaceBackslashes (f : List Nat) : List Nat :=
  f.map (fun b => if b = 92 then 47 else b)

/-- filepath.Base on a slash-separated path: empty path gives ".", a path
of only separators gives "/", otherwise the last element after stripping
trailing separators. -/
def goBase (p : List Nat) : List Nat :=
  if p = [] then [46]
  else
    let r := p.reverse.dropWhile (fun b => b = 47)
    if r = [] then [47]
    else (r.takeWhile (fun b => decide (b ≠ 47))).reverse

/-- safeFilenameRe.ReplaceAllString(name, "_"): every byte outside the
safe class becomes an underscore. -/
def regexSanitize (f : List Nat) : List Nat :=
  f.map (fun b => if isSafeByte b then b else 95)

/-- The bytes of the fallback name "download". -/
def downloadBytes : List Nat := [100, 111, 119, 110, 108, 111, 97, 100]

/-- The filename normalization block of parseFileInfo (part_003 lines
322-328): backslash replacement, Base, regexp sanitization, and the
fallback to "download" for empty, ".", ".." or dot-prefixed results. -/
def sanitizeFilename (raw : List Nat) : List Nat :=
  let f1 := replaceBackslashes raw
  let f2 := goBase f1
  let f3 := regexSanitize f2
  if f3 = [] ∨ f3 = [46] ∨ f3 = [46, 46] ∨ f3.head? = some 46 then downloadBytes else f3

/-- Path components of a slash-separated path, empty components dropped. -/
def splitCompsAux (acc : List Nat) : List Nat → List (List Nat)
  | [] => if acc = [] then [] else [acc]
  | b :: rest =>
    if b = 47 then (if acc = [] then splitCompsAux [] rest else acc :: splitCompsAux [] rest)
    else splitCompsAux (acc ++ [b]) rest

def splitComps (p : List Nat) : List (List Nat) := splitCompsAux [] p

def dotComp : List Nat := [46]

def ddotComp : List Nat := [46, 46]

/-- One step of filepath.Clean's lexical processing: skip ".", pop a
poppable component on "..", drop ".." at the root, otherwise push. -/
def cleanStep (rooted : Bool) (stack : List (List Nat)) (comp : List Nat) : List (List Nat) :=
  if comp = dotComp then stack
  else if comp = ddotComp then
    if stack ≠ [] ∧ stack.getLast? ≠ some ddotComp then stack.dropLast
    else if rooted then stack
    else stack ++ [ddotComp]
  else stack ++ [comp]

def cleanComps (rooted : Bool) (cs : List (List Nat)) : List (List Nat) :=
  cs.foldl (cleanStep rooted) []

/-- filepath.IsAbs on unix: non-empty and starting with the separator. -/
def isAbsB (p : List Nat) : Bool :=
  match p with
  | b :: _ => b == 47
  | [] => false

/-- Join components with "/" separators. -/
def joinComps : List (List Nat) → List Nat
  | [] => []
  | [c] => c
  | c :: rest => c ++ 47 :: joinComps rest

/-- Reassemble the cleaned components, with "/" for an empty rooted result
and "." for an empty relative result. -/
def renderClean (rooted : Bool) (stack : List (List Nat)) : List Nat :=
  if rooted then 47 :: joinComps stack
  else if stack = [] then [46]
  else joinComps stack

/-- filepath.Clean (unix separator), via its documented lexical rules. -/
def goClean (p : List Nat) : List Nat :=
  renderClean (isAbsB p) (cleanComps (isAbsB p) (splitComps p))

/-- filepath.Join of two elements: empty elements are skipped, the rest
joined with "/" and cleaned. -/
def goJoin (a b : List Nat) : List Nat :=
  if a = [] then (if b = [] then [] else goClean b)
  else goClean (a ++ 47 :: b)

/-- filepath.Abs relative to the working directory: absolute paths are
cleaned, relative ones joined onto cwd. -/
def goAbs (cwd p : List Nat) : List Nat :=
  if isAbsB p then goClean p else goJoin cwd p

/-- filepath.Ext: suffix from the last dot of the final element (the
input is scanned reversed). -/
def goExtAux : List Nat → List Nat → List Nat
  | [], _ => []
  | b :: rest, acc =>
    if b = 47 then []
    else if b = 46 then 46 :: acc
    else goExtAux rest (b :: acc)

def goExt (p : List Nat) : List Nat := goExtAux p.reverse []

/-- Decimal ASCII digits of a natural number, most significant first
(strconv.Itoa for non-negative values). -/
def natDigitsAux : Nat → Nat → List Nat
  | 0, _ => []
  | fuel + 1, n => if n < 10 then [48 + n] else natDigitsAux fuel (n / 10) ++ [48 + n % 10]

def natDigits (n : Nat) : List Nat := natDigitsAux (n + 1) n

/-- The duplicate-avoidance rename of parseFileInfo after counter
collisions: nameOnly_counter.ext (counter = 0 means no collision,
path unchanged). -/
def dedupPath (p : List Nat) (counter : Nat) : List Nat :=
  if counter = 0 then p
  else
    let ext := goExt p
    let nameOnly := p.take (p.length - ext.length)
    nameOnly ++ 95 :: natDigits counter ++ ext

/-- C4 counterexample: the receiver normalization maps "../../etc/passwd"
to "passwd" (filepath.Base keeps only the last element), not to
"etc_passwd" as claimed. -/
theorem sanitize_dotdot_counterexample :
    sanitizeFilename (strBytes "../../etc/passwd") = strBytes "passwd" ∧
    strBytes "passwd" ≠ strBytes "etc_passwd" := by
  refine ⟨by decide, by decide⟩

/-- C4 amended: the normalization maps "../../etc/passwd" to "passwd",
"foo/bar" to "bar" and ".hidden" to "download"; the first name is also
what a full file-info payload "../../etc/passwd\0100 0 0\0" produces. -/
theorem sanitize_examples :
    sanitizeFilename (strBytes "../../etc/passwd") = strBytes "passwd" ∧
    sanitizeFilename (strBytes "foo/bar") = strBytes "bar" ∧
    sanitizeFilename (strBytes ".hidden") = strBytes "download" ∧
    (splitNull (strBytes "../../etc/passwd" ++ [0] ++ strBytes "100 0 0" ++ [0])).head? =
      some (strBytes "../../etc/passwd") := by
  refine ⟨by decide, by decide, by decide, by decide⟩

/- ───────────────────────── Path lemmas for the traversal invariant (C3) ───────────────────────── -/

/-- A safe single path component: non-empty, separator-free, not "." or
"..".  sanitizeFilename always produces one. -/
def safeComp (f : List Nat) : Prop :=
  f ≠ [] ∧ 47 ∉ f ∧ f ≠ dotComp ∧ f ≠ ddotComp

def goodStack (S : List (List Nat)) : Prop :=
  ∀ c ∈ S, c ≠ [] ∧ 47 ∉ c ∧ c ≠ dotComp ∧ c ≠ ddotComp

theorem sanitizeFilename_safe (raw : List Nat) : safeComp (sanitizeFilename raw) := by
  unfold sanitizeFilename
  dsimp only
  split_ifs with h
  · refine ⟨by decide, by decide, by decide, by decide⟩
  · simp only [not_or] at h
    obtain ⟨h1, h2, h3, h4⟩ := h
    refine ⟨h1, ?_, h2, h3⟩
    intro hmem
    unfold regexSanitize at hmem
    rcases List.mem_map.mp hmem with ⟨b, _, hb⟩
    by_cases hs : isSafeByte b = true
    · rw [if_pos hs] at hb
      subst hb
      exact absurd hs (by decide)
    · rw [if_neg hs] at hb
      omega

theorem splitCompsAux_append :
    ∀ (x acc y : List Nat),
      splitCompsAux acc (x ++ 47 :: y) = splitCompsAux acc x ++ splitComps y := by
  intro x
  induction x with
  | nil =>
      intro acc y
      by_cases h : acc = []
      · subst h
        simp [splitCompsAux, splitComps]
      · simp [splitCompsAux, h, splitComps]
  | cons b x ih =>
      intro acc y
      by_cases hb : b = 47
      · subst hb
        by_cases h : acc = []
        · simp [splitCompsAux, h, ih]
        · simp [splitCompsAux, h, ih]
      · simp [splitCompsAux, hb, ih]

theorem splitComps_append (x y : List Nat) :
    splitComps (x ++ 47 :: y) = splitComps x ++ splitComps y :=
  splitCompsAux_append x [] y

theorem splitCompsAux_no47 :
    ∀ (f acc : List Nat), 47 ∉ f →
      splitCompsAux acc f = if acc ++ f = [] then [] else [acc ++ f] := by
  intro f
  induction f with
  | nil =>
      intro acc _
      simp [splitCompsAux]
  | cons b f ih =>
      intro acc h
      simp only [List.mem_cons, not_or] at h
      obtain ⟨h1, h2⟩ := h
      have hb : ¬ b = 47 := fun hh => h1 hh.symm
      simp only [splitCompsAux, hb, if_false, ite_false]
      rw [ih (acc ++ [b]) h2]
      simp

theorem splitComps_single {f : List Nat} (hf : safeComp f) : splitComps f = [f] := by
  obtain ⟨h1, h2, _, _⟩ := hf
  unfold splitComps
  rw [splitCompsAux_no47 f [] h2]
  simp [h1]

theorem splitCompsAux_good :
    ∀ (p acc : List Nat), 47 ∉ acc →
      ∀ c ∈ splitCompsAux acc p, c ≠ [] ∧ 47 ∉ c := by
  intro p
  induction p with
  | nil =>
      intro acc hacc c hc
      simp only [splitCompsAux] at hc
      by_cases h : acc = []
      · rw [if_pos h] at hc
        cases hc
      · rw [if_neg h] at hc
        rcases List.mem_singleton.mp hc with rfl
        exact ⟨h, hacc⟩
  | cons b p ih =>
      intro acc hacc c hc
      by_cases hb : b = 47
      · subst hb
        simp only [splitCompsAux, if_pos rfl] at hc
        by_cases h : acc = []
        · rw [if_pos h] at hc
          exact ih [] (by simp) c hc
        · rw [if_neg h] at hc
          rcases List.mem_cons.mp hc with rfl | hc2
          · exact ⟨h, hacc⟩
          · exact ih [] (by simp) c hc2
      · simp only [splitCompsAux, hb, if_false, ite_false] at hc
        refine ih (acc ++ [b]) ?_ c hc
        intro hmem
        rcases List.mem_append.mp hmem with hm | hm
        · exact hacc hm
        · rcases List.mem_singleton.mp hm with rfl
          exact hb rfl

theorem splitComps_good {p : List Nat} : ∀ c ∈ splitComps p, c ≠ [] ∧ 47 ∉ c :=
  splitCompsAux_good p [] (by simp)

theorem cleanComps_append_push {r : Bool} {cs : List (List Nat)} {f : List Nat}
    (h3 : f ≠ dotComp) (h4 : f ≠ ddotComp) :
    cleanComps r (cs ++ [f]) = cleanComps r cs ++ [f] := by
  unfold cleanComps
  rw [List.foldl_append]
  simp [cleanStep, h3, h4]

theorem foldl_cleanStep_good :
    ∀ (S A : List (List Nat)), goodStack S → List.foldl (cleanStep true) A S = A ++ S := by
  intro S
  induction S with
  | nil => intro A _; simp
  | cons c S ih =>
      intro A h
      have hc := h c (List.mem_cons_self c S)
      have hS : goodStack S := fun d hd => h d (List.mem_cons_of_mem c hd)
      simp only [List.foldl_cons]
      rw [show cleanStep true A c = A ++ [c] from by simp [cleanStep, hc.2.2.1, hc.2.2.2]]
      rw [ih (A ++ [c]) hS]
      simp

theorem cleanComps_of_good {S : List (List Nat)} (h : goodStack S) : cleanComps true S = S := by
  unfold cleanComps
  rw [foldl_cleanStep_good S [] h]
  simp

theorem cleanStep_goodStack {S : List (List Nat)} {c : List Nat}
    (hS : goodStack S) (hc : c ≠ [] ∧ 47 ∉ c) : goodStack (cleanStep true S c) := by
  unfold cleanStep
  split_ifs with h1 h2 h3 h4
  · exact hS
  · intro d hd
    exact hS d ((List.dropLast_sublist S).subset hd)
  · exact hS
  · exact absurd rfl h4
  · intro d hd
    rcases List.mem_append.mp hd with hd2 | hd2
    · exact hS d hd2
    · rcases List.mem_singleton.mp hd2 with rfl
      exact ⟨hc.1, hc.2, h1, h2⟩

theorem cleanComps_goodStack {cs : List (List Nat)}
    (h : ∀ c ∈ cs, c ≠ [] ∧ 47 ∉ c) : goodStack (cleanComps true cs) := by
  suffices haux : ∀ (l : List (List Nat)) (A : List (List Nat)),
      (∀ c ∈ l, c ≠ [] ∧ 47 ∉ c) → goodStack A →
      goodStack (List.foldl (cleanStep true) A l) by
    exact haux cs [] h (fun c hc => absurd hc (List.not_mem_nil c))
  intro l
  induction l with
  | nil => intro A _ hA; exact hA
  | cons c l ih =>
      intro A hl hA
      simp only [List.foldl_cons]
      refine ih (cleanStep true A c) (fun d hd => hl d (List.mem_cons_of_mem c hd)) ?_
      exact cleanStep_goodStack hA (hl c (List.mem_cons_self c l))

theorem joinComps_snoc :
    ∀ (S : List (List Nat)) (g : List Nat), S ≠ [] →
      joinComps (S ++ [g]) = joinComps S ++ 47 :: g := by
  intro S
  induction S with
  | nil => intro g h; exact absurd rfl h
  | cons c S ih =>
      intro g _
      cases S with
      | nil => simp [joinComps]
      | cons d S2 =>
          show joinComps (c :: ((d :: S2) ++ [g])) = (c ++ 47 :: joinComps (d :: S2)) ++ 47 :: g
          rw [show joinComps (c :: ((d :: S2) ++ [g])) =
              c ++ 47 :: joinComps ((d :: S2) ++ [g]) from rfl]
          rw [ih g (by simp)]
          simp

theorem splitComps_joinComps :
    ∀ (S : List (List Nat)), goodStack S → splitComps (joinComps S) = S := by
  intro S
  induction S with
  | nil => intro _; rfl
  | cons c S ih =>
      intro h
      have hc := h c (List.mem_cons_self c S)
      have hS : goodStack S := fun d hd => h d (List.mem_cons_of_mem c hd)
      cases S with
      | nil =>
          show splitComps (joinComps [c]) = [c]
          rw [show joinComps [c] = c from rfl]
          exact splitComps_single ⟨hc.1, hc.2.1, hc.2.2.1, hc.2.2.2⟩
      | cons d S2 =>
          show splitComps (c ++ 47 :: joinComps (d :: S2)) = c :: d :: S2
          rw [splitComps_append, splitComps_single ⟨hc.1, hc.2.1, hc.2.2.1, hc.2.2.2⟩, ih hS]
          rfl

theorem splitComps_cons47 (t : List Nat) : splitComps (47 :: t) = splitComps t := by
  simp [splitComps, splitCompsAux]

theorem splitComps_renderClean {S : List (List Nat)} (h : goodStack S) :
    splitComps (renderClean true S) = S := by
  rw [show renderClean true S = 47 :: joinComps S from by simp [renderClean]]
  rw [splitComps_cons47]
  exact splitComps_joinComps S h

theorem renderClean_abs (S : List (List Nat)) : isAbsB (renderClean true S) = true := by
  simp [renderClean, isAbsB]

theorem goClean_of_render {S : List (List Nat)} (h : goodStack S) :
    goClean (renderClean true S) = renderClean true S := by
  unfold goClean
  rw [renderClean_abs, splitComps_renderClean h, cleanComps_of_good h]

theorem isAbsB_append {dl rest : List Nat} (hdl : isAbsB dl = true) :
    isAbsB (dl ++ rest) = true := by
  cases dl with
  | nil => simp [isAbsB] at hdl
  | cons b l => simpa [isAbsB] using hdl

theorem goClean_absSnoc {dl f : List Nat} (hdl : isAbsB dl = true) (hf : safeComp f) :
    goClean (dl ++ 47 :: f) = renderClean true (cleanComps true (splitComps dl) ++ [f]) := by
  unfold goClean
  rw [isAbsB_append hdl, splitComps_append, splitComps_single hf,
    cleanComps_append_push hf.2.2.1 hf.2.2.2]

theorem goClean_abs {dl : List Nat} (hdl : isAbsB dl = true) :
    goClean dl = renderClean true (cleanComps true (splitComps dl)) := by
  unfold goClean
  rw [hdl]

theorem goodStack_clean_of_split (dl : List Nat) :
    goodStack (cleanComps true (splitComps dl)) :=
  cleanComps_goodStack (fun c hc => splitComps_good c hc)

theorem abs_join_under {dl f cwd : List Nat} (hdl : isAbsB dl = true) (hf : safeComp f) :
    splitComps (goAbs cwd (goJoin dl f)) = splitComps (goAbs cwd dl) ++ [f] := by
  have hdlne : dl ≠ [] := by
    cases dl
    · simp [isAbsB] at hdl
    · simp
  have hC : goodStack (cleanComps true (splitComps dl)) := goodStack_clean_of_split dl
  have hT : goodStack (cleanComps true (splitComps dl) ++ [f]) := by
    intro c hc
    rcases List.mem_append.mp hc with hc2 | hc2
    · exact hC c hc2
    · rcases List.mem_singleton.mp hc2 with rfl
      exact ⟨hf.1, hf.2.1, hf.2.2.1, hf.2.2.2⟩
  unfold goJoin
  rw [if_neg hdlne, goClean_absSnoc hdl hf]
  unfold goAbs
  rw [renderClean_abs, if_pos rfl, hdl, if_pos rfl, goClean_of_render hT,
    splitComps_renderClean hT, goClean_abs hdl, splitComps_renderClean hC]

theorem renderClean_snoc (S : List (List Nat)) (g : List Nat) :
    renderClean true (S ++ [g]) =
      ((if S = [] then [47] else renderClean true S ++ [47]) : List Nat) ++ g := by
  by_cases h : S = []
  · subst h
    simp [renderClean, joinComps]
  · rw [if_neg h]
    simp only [renderClean, if_pos rfl]
    rw [joinComps_snoc S g h]
    simp

theorem goExtAux_skip47 :
    ∀ (rf acc xs : List Nat), 47 ∉ rf → goExtAux (rf ++ 47 :: xs) acc = goExtAux rf acc := by
  intro rf
  induction rf with
  | nil => intro acc xs _; simp [goExtAux]
  | cons b rf ih =>
      intro acc xs h
      simp only [List.mem_cons, not_or] at h
      obtain ⟨h1, h2⟩ := h
      have hb : ¬ b = 47 := fun hh => h1 hh.symm
      by_cases hb2 : b = 46
      · subst hb2
        simp [goExtAux]
      · simp only [List.cons_append, goExtAux, hb, hb2, if_false, ite_false]
        exact ih (b :: acc) xs h2

theorem goExt_append47 {x f : List Nat} (hf : 47 ∉ f) :
    goExt ((x ++ [47]) ++ f) = goExt f := by
  unfold goExt
  rw [List.reverse_append, List.reverse_append]
  simp only [List.reverse_singleton, List.singleton_append]
  exact goExtAux_skip47 f.reverse [] x.reverse (by simpa using hf)

theorem goExtAux_len : ∀ (rf acc : List Nat), (goExtAux rf acc).length ≤ rf.length + acc.length := by
  intro rf
  induction rf with
  | nil => intro acc; simp [goExtAux]
  | cons b rf ih =>
      intro acc
      simp only [goExtAux]
      split_ifs with h1 h2
      · simp
      · simp [List.length_cons]
        omega
      · have := ih (b :: acc)
        simp only [List.length_cons] at this ⊢
        omega

theorem goExt_len (f : List Nat) : (goExt f).length ≤ f.length := by
  have := goExtAux_len f.reverse []
  simpa using this

theorem goExtAux_no47 :
    ∀ (rf acc : List Nat), 47 ∉ rf → 47 ∉ acc → 47 ∉ goExtAux rf acc := by
  intro rf
  induction rf with
  | nil => intro acc _ _; simp [goExtAux]
  | cons b rf ih =>
      intro acc h hacc
      simp only [List.mem_cons, not_or] at h
      obtain ⟨h1, h2⟩ := h
      simp only [goExtAux]
      split_ifs with hb1 hb2
      · simp
      · intro hmem
        rcases List.mem_cons.mp hmem with hx | hx
        · omega
        · exact hacc hx
      · refine ih (b :: acc) h2 ?_
        intro hmem
        rcases List.mem_cons.mp hmem with hx | hx
        · exact h1 hx
        · exact hacc hx

theorem goExt_no47 {f : List Nat} (h : 47 ∉ f) : 47 ∉ goExt f :=
  goExtAux_no47 f.reverse [] (by simpa using h) (by simp)

theorem natDigitsAux_range :
    ∀ (fuel n : Nat), ∀ c ∈ natDigitsAux fuel n, 48 ≤ c ∧ c ≤ 57 := by
  intro fuel
  induction fuel with
  | zero => intro n c hc; cases hc
  | succ k ih =>
      intro n c hc
      simp only [natDigitsAux] at hc
      split_ifs at hc with h
      · rcases List.mem_singleton.mp hc with rfl
        omega
      · rcases List.mem_append.mp hc with hc2 | hc2
        · exact ih (n / 10) c hc2
        · rcases List.mem_singleton.mp hc2 with rfl
          have : n % 10 < 10 := Nat.mod_lt n (by norm_num)
          omega

/-- Rename of the final component applied by the duplicate-avoidance loop. -/
def dedupComp (f : List Nat) (n : Nat) : List Nat :=
  if n = 0 then f
  else f.take (f.length - (goExt f).length) ++ 95 :: natDigits n ++ goExt f

theorem dedupComp_safe {f : List Nat} (hf : safeComp f) (n : Nat) :
    safeComp (dedupComp f n) := by
  unfold dedupComp
  by_cases hn : n = 0
  · rw [if_pos hn]; exact hf
  · rw [if_neg hn]
    have h95 : (95 : Nat) ∈ f.take (f.length - (goExt f).length) ++ 95 :: natDigits n ++ goExt f := by
      refine List.mem_append.mpr (Or.inl ?_)
      exact List.mem_append.mpr (Or.inr (List.mem_cons_self _ _))
    refine ⟨List.ne_nil_of_mem h95, ?_, ?_, ?_⟩
    · intro hmem
      rcases List.mem_append.mp hmem with hm | hm
      · rcases List.mem_append.mp hm with hm2 | hm2
        · exact hf.2.1 (List.mem_of_mem_take hm2)
        · rcases List.mem_cons.mp hm2 with hx | hx
          · omega
          · have := natDigitsAux_range (n + 1) n 47 hx
            omega
      · exact goExt_no47 hf.2.1 hm
    · intro heq
      rw [heq] at h95
      rcases List.mem_singleton.mp h95 with h
      omega
    · intro heq
      rw [heq] at h95
      rcases List.mem_cons.mp h95 with h | h
      · omega
      · rcases List.mem_singleton.mp h with h
        omega

theorem dedupPath_append {x f : List Nat} (hf : 47 ∉ f) (n : Nat) :
    dedupPath ((x ++ [47]) ++ f) n = (x ++ [47]) ++ dedupComp f n := by
  unfold dedupPath dedupComp
  by_cases hn : n = 0
  · simp [hn]
  · rw [if_neg hn, if_neg hn]
    have hext : goExt ((x ++ [47]) ++ f) = goExt f := goExt_append47 hf
    dsimp only
    rw [hext]
    have hlen : (goExt f).length ≤ f.length := goExt_len f
    have harith : ((x ++ [47]) ++ f).length - (goExt f).length
        = (x ++ [47]).length + (f.length - (goExt f).length) := by
      simp only [List.length_append, List.length_singleton]
      omega
    rw [harith, List.take_append]
    simp

theorem dedup_target_under {dl f cwd : List Nat} (hdl : isAbsB dl = true)
    (hf : safeComp f) (n : Nat) :
    splitComps (goAbs cwd (dedupPath (goJoin dl f) n)) =
      splitComps (goAbs cwd dl) ++ [dedupComp f n] := by
  have hdlne : dl ≠ [] := by
    cases dl
    · simp [isAbsB] at hdl
    · simp
  have hf' : safeComp (dedupComp f n) := dedupComp_safe hf n
  have hC : goodStack (cleanComps true (splitComps dl)) := goodStack_clean_of_split dl
  have hT : goodStack (cleanComps true (splitComps dl) ++ [dedupComp f n]) := by
    intro c hc
    rcases List.mem_append.mp hc with hc2 | hc2
    · exact hC c hc2
    · rcases List.mem_singleton.mp hc2 with rfl
      exact ⟨hf'.1, hf'.2.1, hf'.2.2.1, hf'.2.2.2⟩
  have hJ : goJoin dl f = renderClean true (cleanComps true (splitComps dl) ++ [f]) := by
    unfold goJoin
    rw [if_neg hdlne, goClean_absSnoc hdl hf]
  have hjform : ((if cleanComps true (splitComps dl) = [] then ([47] : List Nat)
        else renderClean true (cleanComps true (splitComps dl)) ++ [47]))
      = ((if cleanComps true (splitComps dl) = [] then ([] : List Nat)
        else renderClean true (cleanComps true (splitComps dl))) ++ [47]) := by
    by_cases h : cleanComps true (splitComps dl) = [] <;> simp [h]
  have hD : dedupPath (goJoin dl f) n
      = renderClean true (cleanComps true (splitComps dl) ++ [dedupComp f n]) := by
    rw [hJ, renderClean_snoc, hjform, dedupPath_append hf.2.1 n, ← hjform,
      ← renderClean_snoc]
  rw [hD]
  unfold goAbs
  rw [renderClean_abs, if_pos rfl, hdl, if_pos rfl, goClean_of_render hT,
    splitComps_renderClean hT, goClean_abs hdl, splitComps_renderClean hC]

/- ───────────────────────── ZMODEM header codec (part_004) ───────────────────────── -/

/-- hexVal of part_004: value of one ASCII hex digit, 0 for other bytes. -/
def hexVal (c : Nat) : Nat :=
  if 48 ≤ c ∧ c ≤ 57 then c - 48
  else if 97 ≤ c ∧ c ≤ 102 then c - 97 + 10
  else if 65 ≤ c ∧ c ≤ 70 then c - 65 + 10
  else 0

/-- One lowercase hex digit of fmt %02x. -/
def hexDigit (n : Nat) : Nat := if n < 10 then 48 + n else 87 + n

/-- hexByte of part_004: fmt.Sprintf %02x of one byte. -/
def hexByteB (b : Nat) : List Nat := [hexDigit ((b >>> 4) &&& 15), hexDigit (b &&& 15)]

/-- BuildHexHeader of part_004: ZPAD ZPAD ZDLE ZHEX, hex-encoded
type/p0-p3/CRC16, CR LF. -/
def BuildHexHeader (frameType p0 p1 p2 p3 : Nat) : List Nat :=
  let hdr := [frameType, p0, p1, p2, p3]
  let crcVal := CRC16 hdr 0
  [ZPADb, ZPADb, ZDLEb, ZHEXb] ++
    (hdr.map hexByteB).flatten ++
    hexByteB ((crcVal >>> 8) &&& 255) ++ hexByteB (crcVal &&& 255) ++ [13, 10]

/-- BuildPosHeader of part_004: hex header carrying a 32-bit little-endian
position in p0-p3. -/
def BuildPosHeader (frameType : Nat) (position : Nat) : List Nat :=
  BuildHexHeader frameType (position &&& 255) ((position >>> 8) &&& 255)
    ((position >>> 16) &&& 255) ((position >>> 24) &&& 255)

/-- BuildBinHeader of part_004: ZPAD ZDLE ZBIN/ZBIN32, escaped header and
escaped CRC. -/
def BuildBinHeader (frameType p0 p1 p2 p3 : Nat) (useCRC32 : Bool) : List Nat :=
  let hdr := [frameType, p0, p1, p2, p3]
  if useCRC32 then
    [ZPADb, ZDLEb, ZBIN32b] ++ ZDLEEscape hdr ++ ZDLEEscape (le32Bytes (CRC32 hdr 0xFFFFFFFF))
  else
    [ZPADb, ZDLEb, ZBINb] ++ ZDLEEscape hdr ++ ZDLEEscape (be16Bytes (CRC16 hdr 0))

/-- BuildBinPosHeader of part_004. -/
def BuildBinPosHeader (frameType : Nat) (position : Nat) (useCRC32 : Bool) : List Nat :=
  BuildBinHeader frameType (position &&& 255) ((position >>> 8) &&& 255)
    ((position >>> 16) &&& 255) ((position >>> 24) &&& 255) useCRC32

/-- PositionFromParams of part_004: p0-p3 as a little-endian 32-bit value. -/
def PositionFromParams (p0 p1 p2 p3 : Nat) : Nat :=
  p0 ||| (p1 <<< 8) ||| (p2 <<< 16) ||| (p3 <<< 24)

/-- The ZPAD ZPAD ZDLE ZHEX scan of ParseHexHeader; returns the input
suffix right after the pattern. -/
def findHexPat : List Nat → Option (List Nat)
  | a :: b :: c :: d :: rest =>
    if a = ZPADb ∧ b = ZPADb ∧ c = ZDLEb ∧ d = ZHEXb then some rest
    else findHexPat (b :: c :: d :: rest)
  | _ => none

/-- The trailing CR/LF/XON/0x8A skip of ParseHexHeader. -/
def hexTailSkip : List Nat → List Nat
  | [] => []
  | b :: rest =>
    if b = 0x0D ∨ b = 0x0A ∨ b = 0x11 ∨ b = 0x8A then hexTailSkip rest else b :: rest

/-- HexHeader of part_004; the Consumed count is represented by the
unconsumed remainder of the input. -/
structure HexHeader where
  FrameType : Nat
  P0 : Nat
  P1 : Nat
  P2 : Nat
  P3 : Nat
  rest : List Nat
deriving DecidableEq

/-- ParseHexHeader of part_004. -/
def ParseHexHeaderM (data : List Nat) : Option HexHeader :=
  match findHexPat data with
  | none => none
  | some after =>
    if after.length < 14 then none
    else
      let hc := after.take 14
      let v := fun k => (hexVal (hc.getD (2 * k) 0) <<< 4) ||| hexVal (hc.getD (2 * k + 1) 0)
      let crcRecv := ((v 5) <<< 8) ||| v 6
      if crcRecv ≠ CRC16 [v 0, v 1, v 2, v 3, v 4] 0 then none
      else some ⟨v 0, v 1, v 2, v 3, v 4, hexTailSkip (after.drop 14)⟩

/-- The ZPAD ZDLE ZBIN/ZBIN32 scan of ParseBinHeader; returns the CRC32
flag and the input suffix right after the pattern. -/
def findBinPat : List Nat → Option (Bool × List Nat)
  | a :: b :: c :: rest =>
    if a = ZPADb ∧ b = ZDLEb ∧ (c = ZBINb ∨ c = ZBIN32b) then some (decide (c = ZBIN32b), rest)
    else findBinPat (b :: c :: rest)
  | _ => none

/-- BinHeader of part_004; the Consumed count is represented by the
unconsumed remainder of the input. -/
structure BinHeader where
  FrameType : Nat
  P0 : Nat
  P1 : Nat
  P2 : Nat
  P3 : Nat
  IsCRC32 : Bool
  rest : List Nat
deriving DecidableEq

/-- ParseBinHeader of part_004: unescape five header bytes and the CRC
with the shared unescaping loop, then check the CRC. -/
def ParseBinHeaderM (data : List Nat) : Option BinHeader :=
  match findBinPat data with
  | none => none
  | some (isCRC32, after) =>
    let h := crcRead 5 after
    if h.1.length < 5 then none
    else
      let crcLen := if isCRC32 then 4 else 2
      let c := crcRead crcLen h.2
      if c.1.length < crcLen then none
      else
        let ok :=
          if isCRC32 then leUint32 c.1 = CRC32 h.1 0xFFFFFFFF
          else beUint16 c.1 = CRC16 h.1 0
        if ok then
          some ⟨h.1.getD 0 0, h.1.getD 1 0, h.1.getD 2 0, h.1.getD 3 0, h.1.getD 4 0,
            isCRC32, c.2⟩
        else none

/-- The ZPAD rescan of tryParseHeader over buf[1:]; returns the suffix of
the input starting at the first ZPAD, if any. -/
def findZPadAux : List Nat → Option (List Nat)
  | [] => none
  | b :: rest => if b = ZPADb then some (b :: rest) else findZPadAux rest

/-- The tryParseHeader oversize scan starts at index 1. -/
def findZPadFrom1 : List Nat → Option (List Nat)
  | [] => none
  | _ :: rest => findZPadAux rest

/- ───────────────────────── ZMODEM receiver (part_003) ───────────────────────── -/

/-- ReceiverState of part_003. -/
inductive ReceiverState where
  | RxIdle
  | RxInit
  | RxWaitZFile
  | RxReceiving
  | RxDone
deriving DecidableEq

/-- The observable callback firings of the receiver: each OnError call
site, tagged with the data it reports. -/
inductive RxEvent where
  | errTraversal (name : List Nat)
  | errWrite
  | errCreate
  | errCancelledByServer
  | complete (path : List Nat)
deriving DecidableEq

/-- Receiver of part_003.  The file handle is modeled by the fileOpen
flag, SendFunc by the sends log, the UI callbacks by the events log and
the finished flag. -/
structure Receiver where
  DownloadDir : List Nat
  State : ReceiverState
  UseCRC32 : Bool
  Filename : List Nat
  Filepath : List Nat
  Filesize : Nat
  BytesReceived : Nat
  fileOpen : Bool
  buf : List Nat
  sends : List (List Nat)
  events : List RxEvent
  finished : Bool
deriving DecidableEq

/-- The file-system context the receiver runs in: the working directory
resolving filepath.Abs, how many duplicate-name candidates already exist
on disk, and whether os.Create and file writes succeed. -/
structure RxWorld where
  cwd : List Nat
  collisions : Nat
  createOk : Bool
  writeOk : Bool

/-- NewReceiver of part_003. -/
def NewReceiver (downloadDir : List Nat) : Receiver :=
  { DownloadDir := downloadDir, State := .RxIdle, UseCRC32 := false, Filename := [],
    Filepath := [], Filesize := 0, BytesReceived := 0, fileOpen := false, buf := [],
    sends := [], events := [], finished := false }

def rxSend (r : Receiver) (m : List Nat) : Receiver := { r with sends := r.sends ++ [m] }

/-- Receiver.Cancel of part_003: send the abort sequence, close the file,
end the session. -/
def rxCancel (r : Receiver) : Receiver :=
  { r with
    sends := r.sends ++ [AbortSeq], fileOpen := false, State := .RxDone,
    finished := true }

/-- The ZRINIT capability flags sent by the receiver. -/
def rxFlags : Nat := CANFDXb ||| CANOVIOb ||| CANFC32b

/-- ASCII whitespace of strings.Fields. -/
def isSpaceB (b : Nat) : Bool := b = 32 ∨ (9 ≤ b ∧ b ≤ 13)

/-- strings.Fields on a byte string: whitespace-separated runs, empty
runs dropped. -/
def goFieldsAux (acc : List Nat) : List Nat → List (List Nat)
  | [] => if acc = [] then [] else [acc]
  | b :: rest =>
    if isSpaceB b then (if acc = [] then goFieldsAux [] rest else acc :: goFieldsAux [] rest)
    else goFieldsAux (acc ++ [b]) rest

def goFields (s : List Nat) : List (List Nat) := goFieldsAux [] s

/-- fmt.Sscanf with a single %d verb into an int64: optional sign, at
least one digit, out-of-range values fail. -/
def parseDecField (s : List Nat) : Option Int :=
  let sr : Bool × List Nat :=
    match s with
    | 45 :: r => (true, r)
    | 43 :: r => (false, r)
    | r => (false, r)
  let digits := sr.2.takeWhile (fun b => decide (48 ≤ b ∧ b ≤ 57))
  if digits = [] then none
  else
    let v : Nat := digits.foldl (fun a c => a * 10 + (c - 48)) 0
    let x : Int := if sr.1 then -(v : Int) else (v : Int)
    if x < -(2 ^ 63) ∨ 2 ^ 63 - 1 < x then none else some x

/-- The path-traversal acceptance test of parseFileInfo (part_003 lines
332-342): the absolute target has the absolute download directory plus a
separator as a prefix, or equals it. -/
def traversalOK (cwd fp dl : List Nat) : Bool :=
  (goAbs cwd dl ++ [47]).isPrefixOf (goAbs cwd fp) || goAbs cwd fp == goAbs cwd dl

/-- The size-field block of parseFileInfo (part_003 lines 311-320). -/
def rxSizeStep (r : Receiver) (parts : List (List Nat)) : Receiver :=
  if parts.length > 1 ∧ (parts.getD 1 []).length > 0 then
    match goFields (parts.getD 1 []) with
    | m0 :: _ =>
      match parseDecField m0 with
      | some size =>
        if 0 ≤ size ∧ size ≤ (MaxFileSize : Int) then { r with Filesize := size.toNat }
        else r
      | none => r
    | [] => r
  else r

/-- parseFileInfo of part_003: split the file-info payload, parse the
size field, normalize the filename, join with the download directory,
check for traversal, rename around duplicates, open the file and request
data from byte 0. -/
def parseFileInfo (w : RxWorld) (r : Receiver) (data : List Nat) : Receiver :=
  let parts := splitNull data
  if parts.length = 0 then r
  else
    let r := rxSizeStep r parts
    let r := { r with Filename := sanitizeFilename (parts.getD 0 []) }
    let r := { r with Filepath := goJoin r.DownloadDir r.Filename }
    if traversalOK w.cwd r.Filepath r.DownloadDir then
      let r := { r with Filepath := dedupPath r.Filepath w.collisions }
      if w.createOk then
        let r := { r with fileOpen := true, BytesReceived := 0 }
        let r := rxSend r (BuildPosHeader ZRPOSf 0)
        { r with State := .RxReceiving }
      else
        rxCancel { r with events := r.events ++ [.errCreate] }
    else
      rxCancel { r with events := r.events ++ [.errTraversal r.Filename] }

/-- Receiver.handleHeader of part_003. -/
def rxHandleHeader (r : Receiver) (ftype p0 p1 p2 p3 : Nat) : Receiver :=
  if ftype = ZRQINITf then
    { rxSend r (BuildHexHeader ZRINITf 0 0 0 rxFlags) with State := .RxWaitZFile }
  else if ftype = ZFILEf then { r with State := .RxReceiving }
  else if ftype = ZDATAf then
    let offset := PositionFromParams p0 p1 p2 p3
    let r :=
      if r.fileOpen ∧ offset ≠ r.BytesReceived then { r with BytesReceived := offset } else r
    { r with State := .RxReceiving }
  else if ftype = ZEOFf then
    let r := { r with fileOpen := false }
    let r :=
      if r.Filepath ≠ [] then { r with events := r.events ++ [.complete r.Filepath] } else r
    { rxSend r (BuildHexHeader ZRINITf 0 0 0 rxFlags) with State := .RxWaitZFile }
  else if ftype = ZFINf then
    { rxSend r (BuildHexHeader ZFINf 0 0 0 0) with
      fileOpen := false, State := .RxDone, finished := true }
  else if ftype = ZSINITf then rxSend r (BuildHexHeader ZACKf 0 0 0 0)
  else if ftype = ZCANf then
    { r with
      fileOpen := false, State := .RxDone,
      events := r.events ++ [.errCancelledByServer], finished := true }
  else r

/-- Receiver.handleData of part_003: the first subpacket while no file is
open is the ZFILE file-info; later ones are written to the file, with a
ZACK position reply on ZCRCQ/ZCRCW. -/
def rxHandleData (w : RxWorld) (r : Receiver) (payload : List Nat) (endType : Nat) :
    Receiver :=
  if payload.length = 0 then r
  else if r.fileOpen = false then parseFileInfo w r payload
  else if w.writeOk = false then rxCancel { r with events := r.events ++ [.errWrite] }
  else
    let r := { r with BytesReceived := r.BytesReceived + payload.length }
    if endType = ZCRCQb ∨ endType = ZCRCWb then
      rxSend r (BuildPosHeader ZACKf r.BytesReceived)
    else r

/-- Receiver.tryParseHeader of part_003; the Bool is the Go return value
(keep looping). -/
def rxTryParseHeader (r : Receiver) : Receiver × Bool :=
  match ParseHexHeaderM r.buf with
  | some h => (rxHandleHeader { r with buf := h.rest } h.FrameType h.P0 h.P1 h.P2 h.P3, true)
  | none =>
    match ParseBinHeaderM r.buf with
    | some h =>
      let r := { r with buf := h.rest }
      let r := if h.IsCRC32 then { r with UseCRC32 := true } else r
      (rxHandleHeader r h.FrameType h.P0 h.P1 h.P2 h.P3, true)
    | none =>
      if r.buf.length > 1024 then
        match findZPadFrom1 r.buf with
        | some suffix => ({ r with buf := suffix }, true)
        | none => ({ r with buf := [] }, false)
      else (r, false)

/-- Receiver.tryParseData of part_003. -/
def rxTryParseData (w : RxWorld) (r : Receiver) : Receiver × Bool :=
  match ParseHexHeaderM r.buf with
  | some h => (rxHandleHeader { r with buf := h.rest } h.FrameType h.P0 h.P1 h.P2 h.P3, true)
  | none =>
    match ParseBinHeaderM r.buf with
    | some h =>
      let r := { r with buf := h.rest }
      let r := if h.IsCRC32 then { r with UseCRC32 := true } else r
      (rxHandleHeader r h.FrameType h.P0 h.P1 h.P2 h.P3, true)
    | none =>
      match ParseDataSubpacket r.buf r.UseCRC32 with
      | some (payload, endType, rest) =>
        (rxHandleData w { r with buf := rest } payload endType, true)
      | none => (r, false)

/-- Receiver.processBuffer of part_003: at most 200 iterations while the
buffer is nonempty; a state without a switch case burns an iteration. -/
def rxProcessBuffer (w : RxWorld) : Nat → Receiver → Receiver
  | 0, r => r
  | fuel + 1, r =>
    if r.buf.length = 0 then r
    else
      match r.State with
      | .RxWaitZFile | .RxInit =>
        let p := rxTryParseHeader r
        if p.2 then rxProcessBuffer w fuel p.1 else p.1
      | .RxReceiving =>
        let p := rxTryParseData w r
        if p.2 then rxProcessBuffer w fuel p.1 else p.1
      | .RxDone => r
      | .RxIdle => rxProcessBuffer w fuel r

/-- Receiver.Feed of part_003: append to the buffer and process.  There
is no buffer-size check here. -/
def rxFeed (w : RxWorld) (r : Receiver) (data : List Nat) : Receiver :=
  if r.State = .RxIdle ∨ r.State = .RxDone then r
  else rxProcessBuffer w 200 { r with buf := r.buf ++ data }

/-- Receiver.Start of part_003: seed the buffer, send ZRINIT, process. -/
def rxStart (w : RxWorld) (r : Receiver) (initialData : List Nat) : Receiver :=
  let r := { r with State := .RxInit, buf := initialData }
  let r := rxSend r (BuildHexHeader ZRINITf 0 0 0 rxFlags)
  rxProcessBuffer w 200 { r with State := .RxWaitZFile }

/-- The receiver's public inputs after Start: socket data and user
cancellation. -/
inductive RxAct where
  | feed (data : List Nat)
  | cancel

def rxDo (w : RxWorld) (r : Receiver) : RxAct → Receiver
  | .feed data => rxFeed w r data
  | .cancel => rxCancel r

/- ───────────────────────── ZMODEM sender (part_002) ───────────────────────── -/

/-- SenderState of part_002. -/
inductive SenderState where
  | TxIdle
  | TxWaitRInit
  | TxWaitZRPos
  | TxSending
  | TxWaitAck
  | TxWaitZFin
  | TxDone
deriving DecidableEq

/-- The observable callback firings of the sender. -/
inductive TxEvent where
  | errNotFound
  | errTooBig
  | errBufferOverflow
  | errRead
  | errTooManyRetries
  | errCancelledByServer
  | complete (path : List Nat)
deriving DecidableEq

/-- Sender of part_002, with the file handle as a flag and the callbacks
as logs, as for the receiver. -/
structure Sender where
  State : SenderState
  UseCRC32 : Bool
  Filename : List Nat
  Filesize : Nat
  BytesSent : Nat
  retryCount : Nat
  fileOpen : Bool
  buf : List Nat
  sends : List (List Nat)
  events : List TxEvent
  finished : Bool
deriving DecidableEq

/-- The file-system context of the sender: the uploaded file's name and
contents, and whether os.Stat and os.Open succeed. -/
structure TxWorld where
  filename : List Nat
  content : List Nat
  statOk : Bool
  openOk : Bool

/-- NewSender of part_002. -/
def NewSender : Sender :=
  { State := .TxIdle, UseCRC32 := false, Filename := [], Filesize := 0, BytesSent := 0,
    retryCount := 0, fileOpen := false, buf := [], sends := [], events := [],
    finished := false }

def txSend (s : Sender) (m : List Nat) : Sender := { s with sends := s.sends ++ [m] }

/-- Sender.Cancel of part_002. -/
def txCancel (s : Sender) : Sender :=
  { s with
    sends := s.sends ++ [AbortSeq], fileOpen := false, State := .TxDone,
    finished := true }

/-- Sender.StartUpload of part_002 (the SEC-008 size gate included). -/
def txStartUpload (w : TxWorld) (s : Sender) : Sender :=
  if w.statOk = false then { s with events := s.events ++ [.errNotFound] }
  else if w.content.length > MaxFileSize then { s with events := s.events ++ [.errTooBig] }
  else
    let s :=
      { s with
        Filename := w.filename, Filesize := w.content.length, BytesSent := 0,
        retryCount := 0 }
    { txSend s (BuildHexHeader ZRQINITf 0 0 0 0) with State := .TxWaitRInit }

/-- Sender.sendZFile of part_002: binary ZFILE header plus a ZCRCW
file-info subpacket, combined into one send. -/
def txSendZFile (s : Sender) : Sender :=
  let info := s.Filename ++ [0] ++ natDigits s.Filesize ++ [32, 48, 32, 48] ++ [0]
  let subpkt := BuildDataSubpacket info ZCRCWb s.UseCRC32
  txSend s (BuildBinHeader ZFILEf 0 0 0 0 s.UseCRC32 ++ subpkt)

/-- The block-sending loop of startSending: BlockSize reads until the
file is exhausted, ZCRCG subpackets with ZCRCE once BytesSent reaches
Filesize; returns the built subpackets and the final BytesSent. -/
def txBlocks (u : Bool) (filesize : Nat) : Nat → Nat → List Nat → List (List Nat) × Nat
  | 0, bs, _ => ([], bs)
  | fuel + 1, bs, rem =>
    let blk := rem.take BlockSize
    if blk.length = 0 then ([], bs)
    else
      let bs2 := bs + blk.length
      let endType := if filesize ≤ bs2 then ZCRCEb else ZCRCGb
      let p := txBlocks u filesize fuel bs2 (rem.drop BlockSize)
      (BuildDataSubpacket blk endType u :: p.1, p.2)

/-- Sender.startSending of part_002: reopen the file, seek to the resume
offset, send a binary ZDATA position header, the data blocks and ZEOF. -/
def txStartSending (w : TxWorld) (s : Sender) (offset : Nat) : Sender :=
  let s := { s with fileOpen := false }
  if w.openOk = false then txCancel { s with events := s.events ++ [.errRead] }
  else
    let s := { s with fileOpen := true, BytesSent := offset, State := .TxSending }
    let s := txSend s (BuildBinPosHeader ZDATAf offset s.UseCRC32)
    let rem := w.content.drop offset
    let p := txBlocks s.UseCRC32 s.Filesize (rem.length + 1) offset rem
    let s := { s with sends := s.sends ++ p.1, BytesSent := p.2, fileOpen := false }
    { txSend s (BuildPosHeader ZEOFf p.2) with State := .TxWaitAck }

/-- Sender.handleHeader of part_002.  On ZRPOS the retry counter is
incremented and the upload aborted once it exceeds MaxRetries. -/
def txHandleHeader (w : TxWorld) (s : Sender) (ftype p0 p1 p2 p3 : Nat) : Sender :=
  if ftype = ZRINITf then
    let s := { s with UseCRC32 := decide (p3 &&& CANFC32b ≠ 0) }
    match s.State with
    | .TxWaitRInit => { txSendZFile s with State := .TxWaitZRPos }
    | .TxWaitZRPos => s
    | .TxWaitAck =>
      let s := { s with fileOpen := false }
      let s := { s with events := s.events ++ [.complete w.filename] }
      { txSend s (BuildHexHeader ZFINf 0 0 0 0) with State := .TxWaitZFin }
    | _ => s
  else if ftype = ZRPOSf then
    let offset := PositionFromParams p0 p1 p2 p3
    let s := { s with retryCount := s.retryCount + 1 }
    if MaxRetries < s.retryCount then
      txCancel { s with events := s.events ++ [.errTooManyRetries] }
    else txStartSending w s offset
  else if ftype = ZACKf then s
  else if ftype = ZSKIPf then
    { txSend { s with fileOpen := false } (BuildHexHeader ZFINf 0 0 0 0) with
      State := .TxDone, finished := true }
  else if ftype = ZFINf then
    { txSend s [79, 79] with State := .TxDone, finished := true }
  else if ftype = ZCANf then
    { s with
      fileOpen := false, State := .TxDone,
      events := s.events ++ [.errCancelledByServer], finished := true }
  else s

/-- Sender.processBuffer of part_002: one header parse attempt, no loop. -/
def txProcessBuffer (w : TxWorld) (s : Sender) : Sender :=
  match ParseHexHeaderM s.buf with
  | some h => txHandleHeader w { s with buf := h.rest } h.FrameType h.P0 h.P1 h.P2 h.P3
  | none =>
    match ParseBinHeaderM s.buf with
    | some h => txHandleHeader w { s with buf := h.rest } h.FrameType h.P0 h.P1 h.P2 h.P3
    | none => s

/-- Sender.Feed of part_002, including the PT-002 buffer cap: past
MaxBufSize the transfer is aborted with a buffer-overflow error. -/
def txFeed (w : TxWorld) (s : Sender) (data : List Nat) : Sender :=
  if s.State = .TxIdle ∨ s.State = .TxDone then s
  else
    let s := { s with buf := s.buf ++ data }
    if MaxBufSize < s.buf.length then
      txCancel { s with events := s.events ++ [.errBufferOverflow] }
    else txProcessBuffer w s

/- ───────────────────────── Receiver path invariant (C3) ───────────────────────── -/

/-- The receiver path invariant: whenever a file is open, the absolute
target path is the absolute download directory extended by exactly one
nonempty component. -/
def RxInv (w : RxWorld) (dl : List Nat) (r : Receiver) : Prop :=
  r.DownloadDir = dl ∧
  (r.fileOpen = true →
    ∃ g, g ≠ [] ∧ splitComps (goAbs w.cwd r.Filepath) = splitComps (goAbs w.cwd dl) ++ [g])

theorem rxSizeStep_fields (r : Receiver) (parts : List (List Nat)) :
    (rxSizeStep r parts).DownloadDir = r.DownloadDir ∧
    (rxSizeStep r parts).fileOpen = r.fileOpen ∧
    (rxSizeStep r parts).Filepath = r.Filepath ∧
    (rxSizeStep r parts).events = r.events ∧
    (rxSizeStep r parts).State = r.State := by
  refine ⟨?_, ?_, ?_, ?_, ?_⟩ <;>
    · unfold rxSizeStep
      repeat' split
      all_goals rfl

theorem parseFileInfo_inv {w : RxWorld} {dl : List Nat} {r : Receiver}
    (hdl : isAbsB dl = true) (hInv : RxInv w dl r) (data : List Nat) :
    RxInv w dl (parseFileInfo w r data) := by
  obtain ⟨hdd, hopen⟩ := hInv
  unfold parseFileInfo rxSend rxCancel
  by_cases hp : (splitNull data).length = 0
  · rw [if_pos hp]; exact ⟨hdd, hopen⟩
  · rw [if_neg hp]
    dsimp only
    obtain ⟨hs1, _, _, _, _⟩ := rxSizeStep_fields r (splitNull data)
    rw [hs1, hdd]
    split_ifs with ht hc
    · refine ⟨by dsimp only, ?_⟩
      intro _
      dsimp only
      refine ⟨dedupComp (sanitizeFilename ((splitNull data).getD 0 [])) w.collisions,
        (dedupComp_safe (sanitizeFilename_safe _) _).1, ?_⟩
      exact dedup_target_under hdl (sanitizeFilename_safe _) w.collisions
    · exact ⟨by dsimp only, fun h => nomatch h⟩
    · exact ⟨by dsimp only, fun h => nomatch h⟩

theorem rxHandleHeader_inv {w : RxWorld} {dl : List Nat} {r : Receiver}
    (hInv : RxInv w dl r) (ftype p0 p1 p2 p3 : Nat) :
    RxInv w dl (rxHandleHeader r ftype p0 p1 p2 p3) := by
  obtain ⟨hdd, hopen⟩ := hInv
  unfold rxHandleHeader rxSend
  unfold RxInv
  repeat' (first | split | dsimp only)
  all_goals first
    | exact ⟨hdd, hopen⟩
    | exact ⟨hdd, fun h => nomatch h⟩

theorem rxCancel_inv {w : RxWorld} {dl : List Nat} {r : Receiver}
    (hInv : RxInv w dl r) : RxInv w dl (rxCancel r) :=
  ⟨hInv.1, fun h => nomatch h⟩

theorem rxHandleData_inv {w : RxWorld} {dl : List Nat} {r : Receiver}
    (hdl : isAbsB dl = true) (hInv : RxInv w dl r) (payload : List Nat) (endType : Nat) :
    RxInv w dl (rxHandleData w r payload endType) := by
  obtain ⟨hdd, hopen⟩ := hInv
  unfold rxHandleData rxSend rxCancel
  split_ifs with h1 h2 h3 h4
  · exact ⟨hdd, hopen⟩
  · exact parseFileInfo_inv hdl ⟨hdd, hopen⟩ payload
  · exact ⟨hdd, fun h => nomatch h⟩
  · exact ⟨hdd, fun h => hopen h⟩
  · exact ⟨hdd, fun h => hopen h⟩

theorem rxTryParseHeader_inv {w : RxWorld} {dl : List Nat} {r : Receiver}
    (hInv : RxInv w dl r) : RxInv w dl (rxTryParseHeader r).1 := by
  obtain ⟨hdd, hopen⟩ := hInv
  unfold rxTryParseHeader
  repeat' (first | split | dsimp only)
  all_goals first
    | (apply rxHandleHeader_inv <;> exact ⟨hdd, hopen⟩)
    | exact ⟨hdd, hopen⟩

theorem rxTryParseData_inv {w : RxWorld} {dl : List Nat} {r : Receiver}
    (hdl : isAbsB dl = true) (hInv : RxInv w dl r) : RxInv w dl (rxTryParseData w r).1 := by
  obtain ⟨hdd, hopen⟩ := hInv
  unfold rxTryParseData
  repeat' (first | split | dsimp only)
  all_goals first
    | (apply rxHandleHeader_inv <;> exact ⟨hdd, hopen⟩)
    | (apply rxHandleData_inv hdl <;> exact ⟨hdd, hopen⟩)
    | exact ⟨hdd, hopen⟩

theorem rxProcessBuffer_inv {w : RxWorld} {dl : List Nat}
    (hdl : isAbsB dl = true) :
    ∀ (fuel : Nat) (r : Receiver), RxInv w dl r → RxInv w dl (rxProcessBuffer w fuel r) := by
  intro fuel
  induction fuel with
  | zero => intro r h; exact h
  | succ k ih =>
      intro r h
      unfold rxProcessBuffer
      split_ifs with h1
      · exact h
      · split
        · dsimp only
          split
          · exact ih _ (rxTryParseHeader_inv h)
          · exact rxTryParseHeader_inv h
        · dsimp only
          split
          · exact ih _ (rxTryParseHeader_inv h)
          · exact rxTryParseHeader_inv h
        · dsimp only
          split
          · exact ih _ (rxTryParseData_inv hdl h)
          · exact rxTryParseData_inv hdl h
        · exact h
        · exact ih _ h

theorem rxFeed_inv {w : RxWorld} {dl : List Nat} {r : Receiver}
    (hdl : isAbsB dl = true) (hInv : RxInv w dl r) (data : List Nat) :
    RxInv w dl (rxFeed w r data) := by
  obtain ⟨hdd, hopen⟩ := hInv
  unfold rxFeed
  split_ifs with h1
  · exact ⟨hdd, hopen⟩
  · exact rxProcessBuffer_inv hdl 200 _ ⟨hdd, hopen⟩

theorem rxDo_inv {w : RxWorld} {dl : List Nat} {r : Receiver}
    (hdl : isAbsB dl = true) (hInv : RxInv w dl r) (a : RxAct) :
    RxInv w dl (rxDo w r a) := by
  cases a with
  | feed data => exact rxFeed_inv hdl hInv data
  | cancel => exact rxCancel_inv hInv

theorem rxStart_inv {w : RxWorld} {dl : List Nat} {r : Receiver}
    (hdl : isAbsB dl = true) (hInv : RxInv w dl r) (init : List Nat) :
    RxInv w dl (rxStart w r init) := by
  obtain ⟨hdd, hopen⟩ := hInv
  unfold rxStart rxSend
  dsimp only
  exact rxProcessBuffer_inv hdl 200 _ ⟨hdd, hopen⟩

theorem NewReceiver_inv (w : RxWorld) (dl : List Nat) : RxInv w dl (NewReceiver dl) :=
  ⟨rfl, fun h => nomatch h⟩

theorem rxDo_foldl_inv {w : RxWorld} {dl : List Nat} (hdl : isAbsB dl = true) :
    ∀ (acts : List RxAct) (r : Receiver), RxInv w dl r →
      RxInv w dl (acts.foldl (rxDo w) r) := by
  intro acts
  induction acts with
  | nil => intro r h; exact h
  | cons a rest ih =>
      intro r h
      rw [List.foldl_cons]
      exact ih _ (rxDo_inv hdl h a)

theorem rxRun_inv {w : RxWorld} {dl : List Nat}
    (hdl : isAbsB dl = true) (init : List Nat) (acts : List RxAct) :
    RxInv w dl (acts.foldl (rxDo w) (rxStart w (NewReceiver dl) init)) :=
  rxDo_foldl_inv hdl acts _ (rxStart_inv hdl (NewReceiver_inv w dl) init)

theorem parseFileInfo_traversal_abort (w : RxWorld) (r : Receiver) (data : List Nat)
    (hp : splitNull data ≠ [])
    (ht : traversalOK w.cwd
        (goJoin r.DownloadDir (sanitizeFilename ((splitNull data).getD 0 [])))
        r.DownloadDir = false) :
    (parseFileInfo w r data).fileOpen = false ∧
    (parseFileInfo w r data).State = .RxDone ∧
    (parseFileInfo w r data).events
      = r.events ++ [.errTraversal (sanitizeFilename ((splitNull data).getD 0 []))] := by
  have hlen : ¬(splitNull data).length = 0 := fun h => hp (List.length_eq_zero.mp h)
  unfold parseFileInfo rxCancel
  rw [if_neg hlen]
  dsimp only
  obtain ⟨hs1, _, _, hs4, _⟩ := rxSizeStep_fields r (splitNull data)
  rw [hs1, ht]
  simp only [Bool.false_eq_true, if_false]
  exact ⟨trivial, trivial, by rw [hs4]⟩

/-- C3: in every state of the ZMODEM receiver reachable from Start by any
sequence of Feed and Cancel calls, when the target file is open the
absolute target path is the absolute download directory extended by one
nonempty component; and a file-info whose joined path fails the traversal
check raises the path-traversal error and cancels the transfer without
opening a file. -/
theorem receiver_path_stays_under_download_dir
    (w : RxWorld) (dl : List Nat) (hdl : isAbsB dl = true)
    (init : List Nat) (acts : List RxAct) :
    ((acts.foldl (rxDo w) (rxStart w (NewReceiver dl) init)).fileOpen = true →
      ∃ g, g ≠ [] ∧
        splitComps (goAbs w.cwd (acts.foldl (rxDo w) (rxStart w (NewReceiver dl) init)).Filepath)
          = splitComps (goAbs w.cwd dl) ++ [g]) ∧
    (∀ (w2 : RxWorld) (r2 : Receiver) (data : List Nat),
      splitNull data ≠ [] →
      traversalOK w2.cwd
          (goJoin r2.DownloadDir (sanitizeFilename ((splitNull data).getD 0 [])))
          r2.DownloadDir = false →
      (parseFileInfo w2 r2 data).fileOpen = false ∧
      (parseFileInfo w2 r2 data).State = .RxDone ∧
      (parseFileInfo w2 r2 data).events
        = r2.events ++ [.errTraversal (sanitizeFilename ((splitNull data).getD 0 []))]) :=
  ⟨(rxRun_inv hdl init acts).2,
   fun w2 r2 data hp ht => parseFileInfo_traversal_abort w2 r2 data hp ht⟩

/-- C3 witness: a concrete session (ZFILE header, then a file-info
subpacket naming "a") opens a file whose absolute path is the download
directory /dl extended by one component. -/
theorem receiver_path_stays_under_download_dir_witness :
    isAbsB (strBytes "/dl") = true ∧
    (([RxAct.feed (BuildHexHeader ZFILEf 0 0 0 0),
       RxAct.feed (BuildDataSubpacket [97, 0] ZCRCWb false)].foldl
        (rxDo ⟨strBytes "/home", 0, true, true⟩)
        (rxStart ⟨strBytes "/home", 0, true, true⟩ (NewReceiver (strBytes "/dl")) [])).fileOpen
        = true) ∧
    (∃ g, g ≠ [] ∧
      splitComps (goAbs (strBytes "/home")
          ([RxAct.feed (BuildHexHeader ZFILEf 0 0 0 0),
            RxAct.feed (BuildDataSubpacket [97, 0] ZCRCWb false)].foldl
            (rxDo ⟨strBytes "/home", 0, true, true⟩)
            (rxStart ⟨strBytes "/home", 0, true, true⟩ (NewReceiver (strBytes "/dl")) [])).Filepath)
        = splitComps (goAbs (strBytes "/home") (strBytes "/dl")) ++ [g]) :=
  ⟨by decide, by decide,
   (receiver_path_stays_under_download_dir ⟨strBytes "/home", 0, true, true⟩ (strBytes "/dl")
      (by decide) []
      [RxAct.feed (BuildHexHeader ZFILEf 0 0 0 0),
       RxAct.feed (BuildDataSubpacket [97, 0] ZCRCWb false)]).1 (by decide)⟩

/- ───────────────────────── Buffer-cap behaviour (C5) ───────────────────────── -/

theorem findHexPat_no_zpad : ∀ (l : List Nat), (∀ b ∈ l, b ≠ ZPADb) → findHexPat l = none := by
  intro l
  induction l with
  | nil => intro _; rfl
  | cons a t ih =>
      intro h
      rcases t with _ | ⟨b, t2⟩
      · rfl
      rcases t2 with _ | ⟨c, t3⟩
      · rfl
      rcases t3 with _ | ⟨d, rest⟩
      · rfl
      have ha : a ≠ ZPADb := h a (List.mem_cons_self _ _)
      simp only [findHexPat]
      rw [if_neg (by intro hcon; exact ha hcon.1)]
      exact ih (fun x hx => h x (List.mem_cons_of_mem _ hx))

theorem findBinPat_no_zpad : ∀ (l : List Nat), (∀ b ∈ l, b ≠ ZPADb) → findBinPat l = none := by
  intro l
  induction l with
  | nil => intro _; rfl
  | cons a t ih =>
      intro h
      rcases t with _ | ⟨b, t2⟩
      · rfl
      rcases t2 with _ | ⟨c, t3⟩
      · rfl
      have ha : a ≠ ZPADb := h a (List.mem_cons_self _ _)
      simp only [findBinPat]
      rw [if_neg (by intro hcon; exact ha hcon.1)]
      exact ih (fun x hx => h x (List.mem_cons_of_mem _ hx))

theorem findZPadAux_no_zpad : ∀ (l : List Nat), (∀ b ∈ l, b ≠ ZPADb) → findZPadAux l = none := by
  intro l
  induction l with
  | nil => intro _; rfl
  | cons a t ih =>
      intro h
      simp only [findZPadAux]
      rw [if_neg (h a (List.mem_cons_self _ _))]
      exact ih (fun x hx => h x (List.mem_cons_of_mem _ hx))

theorem ParseHexHeaderM_no_zpad {l : List Nat} (h : ∀ b ∈ l, b ≠ ZPADb) :
    ParseHexHeaderM l = none := by
  unfold ParseHexHeaderM
  rw [findHexPat_no_zpad l h]

theorem ParseBinHeaderM_no_zpad {l : List Nat} (h : ∀ b ∈ l, b ≠ ZPADb) :
    ParseBinHeaderM l = none := by
  unfold ParseBinHeaderM
  rw [findBinPat_no_zpad l h]

theorem replicate_zero_no_zpad (n : Nat) : ∀ b ∈ List.replicate n 0, b ≠ ZPADb := by
  intro b hb
  have := List.eq_of_mem_replicate hb
  subst this
  decide

theorem rxTryParseHeader_clear (r : Receiver)
    (hhex : ParseHexHeaderM r.buf = none) (hbin : ParseBinHeaderM r.buf = none)
    (hlen : 1024 < r.buf.length) (hzp : findZPadFrom1 r.buf = none) :
    rxTryParseHeader r = ({ r with buf := [] }, false) := by
  unfold rxTryParseHeader
  rw [hhex, hbin, if_pos hlen, hzp]

theorem rxProcessBuffer_stop (w : RxWorld) (fuel : Nat) (r r' : Receiver)
    (hs : r.State = .RxWaitZFile) (hb : ¬r.buf.length = 0)
    (hp : rxTryParseHeader r = (r', false)) :
    rxProcessBuffer w (fuel + 1) r = r' := by
  unfold rxProcessBuffer
  rw [if_neg hb, hs]
  dsimp only
  rw [hp]
  simp

/-- C5: the receiver has no buffer cap.  Feeding MaxBufSize + 1 zero
bytes to a receiver waiting for ZFILE pushes its buffer past the cap yet
raises no error and leaves the session running (the oversize scan merely
clears the buffer); the sender, fed the same data, aborts with a
buffer-overflow error as specified. -/
theorem receiver_missing_buffer_cap
    (w : RxWorld) (tw : TxWorld) (r0 : Receiver) (s0 : Sender)
    (hrs : r0.State = .RxWaitZFile) (hrb : r0.buf = [])
    (hre : r0.events = []) (hrf : r0.finished = false)
    (hss : s0.State = .TxWaitRInit) (hsb : s0.buf = []) (hse : s0.events = []) :
    (r0.buf ++ List.replicate (MaxBufSize + 1) 0).length > MaxBufSize ∧
    (rxFeed w r0 (List.replicate (MaxBufSize + 1) 0)).events = [] ∧
    (rxFeed w r0 (List.replicate (MaxBufSize + 1) 0)).State = .RxWaitZFile ∧
    (rxFeed w r0 (List.replicate (MaxBufSize + 1) 0)).finished = false ∧
    (txFeed tw s0 (List.replicate (MaxBufSize + 1) 0)).events = [.errBufferOverflow] ∧
    (txFeed tw s0 (List.replicate (MaxBufSize + 1) 0)).State = .TxDone := by
  have hlen : (List.replicate (MaxBufSize + 1) (0 : Nat)).length = MaxBufSize + 1 :=
    List.length_replicate _ _
  have hz : findZPadFrom1 (List.replicate (MaxBufSize + 1) 0) = none := by
    rw [List.replicate_succ]
    unfold findZPadFrom1
    exact findZPadAux_no_zpad _ (replicate_zero_no_zpad _)
  have htp : rxTryParseHeader { r0 with buf := List.replicate (MaxBufSize + 1) 0 }
      = ({ r0 with buf := [] }, false) :=
    rxTryParseHeader_clear _ (ParseHexHeaderM_no_zpad (replicate_zero_no_zpad _))
      (ParseBinHeaderM_no_zpad (replicate_zero_no_zpad _))
      (by dsimp only; rw [hlen]; norm_num [MaxBufSize]) hz
  have hrx : rxFeed w r0 (List.replicate (MaxBufSize + 1) 0)
      = { r0 with buf := [] } := by
    unfold rxFeed
    rw [if_neg (by rw [hrs]; intro hcon; rcases hcon with h | h <;> exact nomatch h)]
    rw [hrb]
    simp only [List.nil_append]
    have h200 : (200 : Nat) = 199 + 1 := rfl
    rw [h200]
    exact rxProcessBuffer_stop w 199 _ _ hrs (by dsimp only; rw [hlen]; omega) htp
  have htx : txFeed tw s0 (List.replicate (MaxBufSize + 1) 0)
      = txCancel { s0 with
          buf := List.replicate (MaxBufSize + 1) 0,
          events := s0.events ++ [.errBufferOverflow] } := by
    unfold txFeed
    rw [if_neg (by rw [hss]; intro hcon; rcases hcon with h | h <;> exact nomatch h)]
    dsimp only
    rw [hsb]
    simp only [List.nil_append]
    rw [if_pos (by rw [hlen]; omega)]
  refine ⟨?_, ?_, ?_, ?_, ?_, ?_⟩
  · rw [hrb]; simp [hlen]
  · rw [hrx]; exact hre
  · rw [hrx]; exact hrs
  · rw [hrx]; exact hrf
  · rw [htx]; unfold txCancel; dsimp only; rw [hse]; rfl
  · rw [htx]; rfl

/-- C5 witness: a freshly started receiver session versus a freshly
started upload, both fed 65537 zero bytes. -/
theorem receiver_missing_buffer_cap_witness :
    ((rxStart ⟨[47, 104], 0, true, true⟩ (NewReceiver [47, 100]) []).State
        = .RxWaitZFile) ∧
    ((rxFeed ⟨[47, 104], 0, true, true⟩
        (rxStart ⟨[47, 104], 0, true, true⟩ (NewReceiver [47, 100]) [])
        (List.replicate (MaxBufSize + 1) 0)).events = [] ∧
      (rxFeed ⟨[47, 104], 0, true, true⟩
        (rxStart ⟨[47, 104], 0, true, true⟩ (NewReceiver [47, 100]) [])
        (List.replicate (MaxBufSize + 1) 0)).State = .RxWaitZFile) ∧
    ((txFeed ⟨[102], [65], true, true⟩
        (txStartUpload ⟨[102], [65], true, true⟩ NewSender)
        (List.replicate (MaxBufSize + 1) 0)).events = [.errBufferOverflow] ∧
      (txFeed ⟨[102], [65], true, true⟩
        (txStartUpload ⟨[102], [65], true, true⟩ NewSender)
        (List.replicate (MaxBufSize + 1) 0)).State = .TxDone) := by
  have h := receiver_missing_buffer_cap ⟨[47, 104], 0, true, true⟩ ⟨[102], [65], true, true⟩
    (rxStart ⟨[47, 104], 0, true, true⟩ (NewReceiver [47, 100]) [])
    (txStartUpload ⟨[102], [65], true, true⟩ NewSender)
    (by decide) (by decide) (by decide) (by decide) (by decide) (by decide) (by decide)
  exact ⟨by decide, ⟨h.2.1, h.2.2.1⟩, ⟨h.2.2.2.2.1, h.2.2.2.2.2⟩⟩

/- ───────────────────────── Sender retry bound (C8) ───────────────────────── -/

theorem txZrposParse : ParseHexHeaderM (BuildPosHeader ZRPOSf 0)
    = some ⟨9, 0, 0, 0, 0, []⟩ := by decide

theorem txZrinitParse : ParseHexHeaderM (BuildHexHeader ZRINITf 0 0 0 0)
    = some ⟨1, 0, 0, 0, 0, []⟩ := by decide

theorem txFeed_zrpos (w : TxWorld) (s : Sender)
    (hopen : w.openOk = true)
    (h1 : s.State ≠ .TxIdle) (h2 : s.State ≠ .TxDone) (hb : s.buf = []) :
    (txFeed w s (BuildPosHeader ZRPOSf 0)).State
        = (if MaxRetries < s.retryCount + 1 then .TxDone else .TxWaitAck) ∧
    (txFeed w s (BuildPosHeader ZRPOSf 0)).events
        = (if MaxRetries < s.retryCount + 1 then s.events ++ [.errTooManyRetries]
           else s.events) ∧
    (txFeed w s (BuildPosHeader ZRPOSf 0)).retryCount = s.retryCount + 1 ∧
    (txFeed w s (BuildPosHeader ZRPOSf 0)).buf = [] ∧
    (txFeed w s (BuildPosHeader ZRPOSf 0)).finished
        = (if MaxRetries < s.retryCount + 1 then true else s.finished) := by
  have hTF : txFeed w s (BuildPosHeader ZRPOSf 0)
      = txHandleHeader w { s with buf := [] } 9 0 0 0 0 := by
    unfold txFeed
    rw [if_neg (by intro hcon; rcases hcon with h | h; exacts [h1 h, h2 h])]
    dsimp only
    rw [hb]
    simp only [List.nil_append]
    rw [if_neg (by decide)]
    unfold txProcessBuffer
    dsimp only
    rw [txZrposParse]
  rw [hTF]
  unfold txHandleHeader
  rw [if_neg (by decide), if_pos (by decide)]
  dsimp only
  by_cases hr : MaxRetries < s.retryCount + 1
  · rw [if_pos hr]
    unfold txCancel
    dsimp only
    refine ⟨?_, ?_, ?_, ?_, ?_⟩ <;> simp [hr]
  · rw [if_neg hr]
    unfold txStartSending
    rw [if_neg (by rw [hopen]; exact fun h => nomatch h)]
    dsimp only
    refine ⟨?_, ?_, ?_, ?_, ?_⟩ <;> simp [txSend, hr]

theorem tx_after_zrinit (w : TxWorld) (hstat : w.statOk = true)
    (hsize : w.content.length ≤ MaxFileSize) :
    (txFeed w (txStartUpload w NewSender) (BuildHexHeader ZRINITf 0 0 0 0)).State
        = .TxWaitZRPos ∧
    (txFeed w (txStartUpload w NewSender) (BuildHexHeader ZRINITf 0 0 0 0)).buf = [] ∧
    (txFeed w (txStartUpload w NewSender) (BuildHexHeader ZRINITf 0 0 0 0)).events = [] ∧
    (txFeed w (txStartUpload w NewSender) (BuildHexHeader ZRINITf 0 0 0 0)).retryCount = 0 ∧
    (txFeed w (txStartUpload w NewSender) (BuildHexHeader ZRINITf 0 0 0 0)).finished
        = false := by
  have hSU : txStartUpload w NewSender
      = { State := .TxWaitRInit, UseCRC32 := false, Filename := w.filename,
          Filesize := w.content.length, BytesSent := 0, retryCount := 0, fileOpen := false,
          buf := [], sends := [BuildHexHeader ZRQINITf 0 0 0 0], events := [],
          finished := false } := by
    unfold txStartUpload txSend NewSender
    rw [if_neg (by rw [hstat]; exact fun h => nomatch h), if_neg (by omega)]
    rfl
  rw [hSU]
  unfold txFeed
  rw [if_neg (by intro hcon; rcases hcon with h | h <;> exact nomatch h)]
  dsimp only
  simp only [List.nil_append]
  rw [if_neg (by decide)]
  unfold txProcessBuffer
  dsimp only
  rw [txZrinitParse]
  dsimp only
  unfold txHandleHeader
  rw [if_pos (by decide)]
  dsimp only
  refine ⟨?_, ?_, ?_, ?_, ?_⟩ <;> simp [txSendZFile, txSend]

theorem tx_zrpos_iter (w : TxWorld) (hopen : w.openOk = true) :
    ∀ (k : Nat) (s : Sender),
      s.State = .TxWaitZRPos ∨ s.State = .TxWaitAck → s.buf = [] → s.events = [] →
      s.finished = false → k + s.retryCount ≤ MaxRetries →
      (((List.replicate k (BuildPosHeader ZRPOSf 0)).foldl (txFeed w) s).State = .TxWaitZRPos ∨
        ((List.replicate k (BuildPosHeader ZRPOSf 0)).foldl (txFeed w) s).State = .TxWaitAck) ∧
      ((List.replicate k (BuildPosHeader ZRPOSf 0)).foldl (txFeed w) s).buf = [] ∧
      ((List.replicate k (BuildPosHeader ZRPOSf 0)).foldl (txFeed w) s).events = [] ∧
      ((List.replicate k (BuildPosHeader ZRPOSf 0)).foldl (txFeed w) s).finished = false ∧
      ((List.replicate k (BuildPosHeader ZRPOSf 0)).foldl (txFeed w) s).retryCount
          = s.retryCount + k := by
  intro k
  induction k with
  | zero =>
      intro s hor hb he hf _
      exact ⟨hor, hb, he, hf, rfl⟩
  | succ k ih =>
      intro s hor hb he hf hbound
      rw [List.replicate_succ, List.foldl_cons]
      have h1 : s.State ≠ SenderState.TxIdle := by
        rcases hor with h | h <;> (rw [h]; exact fun hcon => nomatch hcon)
      have h2 : s.State ≠ SenderState.TxDone := by
        rcases hor with h | h <;> (rw [h]; exact fun hcon => nomatch hcon)
      obtain ⟨hS, hE, hR, hB, hF⟩ := txFeed_zrpos w s hopen h1 h2 hb
      have hnr : ¬MaxRetries < s.retryCount + 1 := by omega
      rw [if_neg hnr] at hS hE hF
      refine ?_
      have := ih (txFeed w s (BuildPosHeader ZRPOSf 0)) (Or.inr hS) hB (hE.trans he)
        (hF.trans hf) (by omega)
      refine ⟨this.1, this.2.1, this.2.2.1, this.2.2.2.1, ?_⟩
      rw [this.2.2.2.2, hR]
      omega

/-- C8: after an upload is started and the server's ZRINIT accepted, each
received ZRPOS increments the retry counter: five or fewer ZRPOS frames
leave the upload running with no error, while the sixth pushes the
counter past MaxRetries = 5 and aborts the upload with the
too-many-retries error. -/
theorem sender_retry_abort_on_sixth_zrpos
    (w : TxWorld) (hstat : w.statOk = true) (hopen : w.openOk = true)
    (hsize : w.content.length ≤ MaxFileSize) (n : Nat) :
    (n ≤ MaxRetries →
      ((List.replicate n (BuildPosHeader ZRPOSf 0)).foldl (txFeed w)
          (txFeed w (txStartUpload w NewSender) (BuildHexHeader ZRINITf 0 0 0 0))).State
        ≠ .TxDone ∧
      ((List.replicate n (BuildPosHeader ZRPOSf 0)).foldl (txFeed w)
          (txFeed w (txStartUpload w NewSender) (BuildHexHeader ZRINITf 0 0 0 0))).events
        = [] ∧
      ((List.replicate n (BuildPosHeader ZRPOSf 0)).foldl (txFeed w)
          (txFeed w (txStartUpload w NewSender) (BuildHexHeader ZRINITf 0 0 0 0))).finished
        = false) ∧
    (n = MaxRetries + 1 →
      ((List.replicate n (BuildPosHeader ZRPOSf 0)).foldl (txFeed w)
          (txFeed w (txStartUpload w NewSender) (BuildHexHeader ZRINITf 0 0 0 0))).State
        = .TxDone ∧
      ((List.replicate n (BuildPosHeader ZRPOSf 0)).foldl (txFeed w)
          (txFeed w (txStartUpload w NewSender) (BuildHexHeader ZRINITf 0 0 0 0))).events
        = [.errTooManyRetries] ∧
      ((List.replicate n (BuildPosHeader ZRPOSf 0)).foldl (txFeed w)
          (txFeed w (txStartUpload w NewSender) (BuildHexHeader ZRINITf 0 0 0 0))).finished
        = true) := by
  obtain ⟨hS0, hB0, hE0, hR0, hF0⟩ := tx_after_zrinit w hstat hsize
  constructor
  · intro hn
    obtain ⟨hor, hb, he, hf, _⟩ := tx_zrpos_iter w hopen n _ (Or.inl hS0) hB0 hE0 hF0
      (by omega)
    refine ⟨?_, he, hf⟩
    intro hcon
    rcases hor with h | h <;> exact nomatch (h.symm.trans hcon)
  · intro hn
    subst hn
    rw [List.replicate_succ', List.foldl_append]
    obtain ⟨hor, hb, he, hf, hr⟩ := tx_zrpos_iter w hopen MaxRetries _ (Or.inl hS0) hB0 hE0
      hF0 (by omega)
    have h1 : (((List.replicate MaxRetries (BuildPosHeader ZRPOSf 0)).foldl (txFeed w)
        (txFeed w (txStartUpload w NewSender) (BuildHexHeader ZRINITf 0 0 0 0)))).State
        ≠ SenderState.TxIdle := by
      rcases hor with h | h <;> (rw [h]; exact fun hcon => nomatch hcon)
    have h2 : (((List.replicate MaxRetries (BuildPosHeader ZRPOSf 0)).foldl (txFeed w)
        (txFeed w (txStartUpload w NewSender) (BuildHexHeader ZRINITf 0 0 0 0)))).State
        ≠ SenderState.TxDone := by
      rcases hor with h | h <;> (rw [h]; exact fun hcon => nomatch hcon)
    obtain ⟨hS, hE, hR, hB, hF⟩ := txFeed_zrpos w _ hopen h1 h2 hb
    have hyes : MaxRetries <
        (((List.replicate MaxRetries (BuildPosHeader ZRPOSf 0)).foldl (txFeed w)
          (txFeed w (txStartUpload w NewSender)
            (BuildHexHeader ZRINITf 0 0 0 0)))).retryCount + 1 := by
      rw [hr, hR0]
      omega
    rw [if_pos hyes] at hS hE hF
    simp only [List.foldl_cons, List.foldl_nil]
    refine ⟨hS, ?_, hF⟩
    rw [hE, he]
    rfl

/-- C8 witness: uploading a one-byte file, three ZRPOS frames leave the
upload running, while six end it with the too-many-retries error. -/
theorem sender_retry_abort_on_sixth_zrpos_witness :
    (((List.replicate 3 (BuildPosHeader ZRPOSf 0)).foldl
        (txFeed ⟨[102], [65], true, true⟩)
        (txFeed ⟨[102], [65], true, true⟩
          (txStartUpload ⟨[102], [65], true, true⟩ NewSender)
          (BuildHexHeader ZRINITf 0 0 0 0))).State ≠ .TxDone) ∧
    (((List.replicate (MaxRetries + 1) (BuildPosHeader ZRPOSf 0)).foldl
        (txFeed ⟨[102], [65], true, true⟩)
        (txFeed ⟨[102], [65], true, true⟩
          (txStartUpload ⟨[102], [65], true, true⟩ NewSender)
          (BuildHexHeader ZRINITf 0 0 0 0))).State = .TxDone) ∧
    (((List.replicate (MaxRetries + 1) (BuildPosHeader ZRPOSf 0)).foldl
        (txFeed ⟨[102], [65], true, true⟩)
        (txFeed ⟨[102], [65], true, true⟩
          (txStartUpload ⟨[102], [65], true, true⟩ NewSender)
          (BuildHexHeader ZRINITf 0 0 0 0))).events = [.errTooManyRetries]) :=
  ⟨((sender_retry_abort_on_sixth_zrpos ⟨[102], [65], true, true⟩ rfl rfl (by decide) 3).1
      (by decide)).1,
   ((sender_retry_abort_on_sixth_zrpos ⟨[102], [65], true, true⟩ rfl rfl (by decide)
      (MaxRetries + 1)).2 rfl).1,
   ((sender_retry_abort_on_sixth_zrpos ⟨[102], [65], true, true⟩ rfl rfl (by decide)
      (MaxRetries + 1)).2 rfl).2.1⟩
